import Mathlib

set_option maxHeartbeats 1000000
set_option maxRecDepth 4000

namespace PresentRus

/-! # Data model

JSON-like values of the token document (`variables.json`), following the
JavaScript data model used by `themes/prsmtech/build.js` and the core module.
The array and object spines are separate inductives of the mutual family so
that all recursion over documents is structural. -/

mutual
inductive JValue where
  | str (s : String)
  | num (n : Int)
  | bool (b : Bool)
  | null
  /-- JS `undefined`: never present in a JSON-parsed token document, used to
  model missing-property reads and `JSON.stringify` omission. -/
  | undef
  | arr (elems : JList)
  | obj (fields : JFields)
deriving DecidableEq, Repr

inductive JList where
  | nil
  | cons (v : JValue) (rest : JList)
deriving DecidableEq, Repr

inductive JFields where
  | nil
  | cons (k : String) (v : JValue) (rest : JFields)
deriving DecidableEq, Repr
end

/-- Build an object spine from a list literal. -/
def JFields.ofList : List (String × JValue) → JFields
  | [] => .nil
  | (k, v) :: rest => .cons k v (JFields.ofList rest)

/-- Build an array spine from a list literal. -/
def JList.ofList : List JValue → JList
  | [] => .nil
  | v :: rest => .cons v (JList.ofList rest)

/-- Object literal helper. -/
def jobj (l : List (String × JValue)) : JValue := .obj (.ofList l)

/-- Array literal helper. -/
def jarr (l : List JValue) : JValue := .arr (.ofList l)

/-- The fields of an object as an ordinary list (for stating properties). -/
def JFields.toList : JFields → List (String × JValue)
  | .nil => []
  | .cons k v rest => (k, v) :: rest.toList

/-- The elements of an array as an ordinary list. -/
def JList.toList : JList → List JValue
  | .nil => []
  | .cons v rest => v :: rest.toList

/-- JS property presence/read on an object (`'k' in o` / `o.k`), first match. -/
def JFields.lookup : JFields → String → Option JValue
  | .nil, _ => none
  | .cons k v rest, name => if k == name then some v else rest.lookup name

/-- `s.startsWith(p)`, modelled on the character list so that it computes in
the kernel (`String.startsWith` itself is a byte-level loop). -/
def jsStartsWith (s p : String) : Bool := p.data.isPrefixOf s.data

/-- `s.includes(c)` for a single character, modelled on the character list. -/
def jsContainsChar (s : String) (c : Char) : Bool := s.data.contains c

/-- The prefix extension of flattenObject: `prefix.length ? prefix + "-" : ""`. -/
def dashPre (pfx : String) : String := if pfx.length != 0 then pfx ++ "-" else ""

/-- JS `Array.prototype.join(sep)` for a list of strings. -/
def jsJoin (sep : String) : List String → String
  | [] => ""
  | [x] => x
  | x :: xs => x ++ sep ++ jsJoin sep xs

/-- A flattened token map, in JS object insertion order. -/
abbrev FlatMap := List (String × JValue)

/-- JS object property write `acc[k] = v`: if the key is present its value is
updated in place (the key keeps its original position), otherwise the new key
is appended at the end. -/
def jsInsert (acc : FlatMap) (k : String) (v : JValue) : FlatMap :=
  if acc.any (fun p => p.1 == k) then
    acc.map (fun p => if p.1 == k then (k, v) else p)
  else acc ++ [(k, v)]

/-- `Object.assign(acc, src)`: write every field of `src` into `acc` in order. -/
def jsAssign (acc src : FlatMap) : FlatMap :=
  src.foldl (fun a p => jsInsert a p.1 p.2) acc

instance {ε α : Type} [DecidableEq ε] [DecidableEq α] : DecidableEq (Except ε α) := fun x y =>
  match x, y with
  | .ok a, .ok b => if h : a = b then .isTrue (by rw [h]) else .isFalse (by simp [h])
  | .error a, .error b => if h : a = b then .isTrue (by rw [h]) else .isFalse (by simp [h])
  | .ok _, .error _ => .isFalse (by simp)
  | .error _, .ok _ => .isFalse (by simp)

/-! # The Flattener (build.js lines 42-74) -/

/-- One font name inside a fontFamily array: build.js maps
`f => f.includes(' ') ? `"${f}"` : f`.  In JS a non-string element makes
`f.includes(' ')` throw a TypeError (numbers, booleans, null and plain objects
have no `includes`; we conservatively treat nested arrays, which never occur
in a font list, the same way). -/
def quoteFont : JValue → Except String String
  | .str f => .ok (if jsContainsChar f ' ' then "\"" ++ f ++ "\"" else f)
  | _ => .error "TypeError: f.includes is not a function"

/-- `fonts.map(quote)` over an array, failing at the first non-string element
exactly as the JS `Array.prototype.map` callback would throw. -/
def quoteFonts : JList → Except String (List String)
  | .nil => .ok []
  | .cons f rest => do
      let q ← quoteFont f
      let qs ← quoteFonts rest
      .ok (q :: qs)

/-- The fontFamily special case of `flattenObject` (build.js lines 57-64):
`Object.keys(value).forEach(fontKey => ...)`; each entry that is an array is
joined with `", "` after quoting, a non-array entry is stored verbatim.
`base` is the already-extended prefix `pre + key`. -/
def fontFamilyFold : JFields → String → FlatMap → Except String FlatMap
  | .nil, _, acc => .ok acc
  | .cons fontKey fonts rest, base, acc =>
    match fonts with
    | .arr elems => do
        let quoted ← quoteFonts elems
        fontFamilyFold rest base
          (jsInsert acc (base ++ "-" ++ fontKey) (.str (jsJoin ", " quoted)))
    | _ => fontFamilyFold rest base (jsInsert acc (base ++ "-" ++ fontKey) fonts)

/-- The Flattener `flattenObject(obj, prefix)` of build.js (lines 42-74),
written as the explicit fold that `Object.keys(obj).reduce` performs, with the
accumulator object made explicit.  Branches, in source order:
- a non-array object value:
  - keys starting with `$` are skipped,
  - `'value' in value && typeof value.value === 'string'` collapses to that string,
  - `'DEFAULT' in value` promotes the DEFAULT value and recurses into the object,
  - key `fontFamily` triggers the font-join special case,
  - otherwise a fresh recursive flatten of the child is `Object.assign`ed in;
- a string or number value is emitted at `pre + key`;
- everything else (arrays, booleans, null) is silently dropped.
JS exceptions (only the fontFamily TypeError) are modelled with `Except`. -/
def flattenList : JFields → String → FlatMap → Except String FlatMap
  | .nil, _, acc => .ok acc
  | .cons key value rest, pfx, acc =>
    let pre := dashPre pfx
    match value with
    | .obj fields =>
      if jsStartsWith key "$" then flattenList rest pfx acc
      else match fields.lookup "value" with
        | some (.str s) => flattenList rest pfx (jsInsert acc (pre ++ key) (.str s))
        | _ =>
          match fields.lookup "DEFAULT" with
          | some d => do
              let sub ← flattenList fields (pre ++ key) []
              flattenList rest pfx (jsAssign (jsInsert acc (pre ++ key) d) sub)
          | none =>
            if key == "fontFamily" then do
              let acc' ← fontFamilyFold fields (pre ++ key) acc
              flattenList rest pfx acc'
            else do
              let sub ← flattenList fields (pre ++ key) []
              flattenList rest pfx (jsAssign acc sub)
    | .str s => flattenList rest pfx (jsInsert acc (pre ++ key) (.str s))
    | .num n => flattenList rest pfx (jsInsert acc (pre ++ key) (.num n))
    | _ => flattenList rest pfx acc

/-- `flattenObject(obj, prefix)` of build.js. -/
def flattenObject (obj : JFields) (pfx : String) : Except String FlatMap :=
  flattenList obj pfx []


/-! # The read-path accessor `getCSSVariables` (core module lines 280-308) -/

mutual
/-- Body of `getCSSVariables`'s inner `flatten(obj, prefix)`, iterating
`Object.entries(obj)`.  Unlike build.js's `flattenObject`: the `$` skip
applies to every value shape, a `DEFAULT` and then a `value` member are both
promoted unconditionally (no string check, recursion continues afterwards),
and JS arrays pass the `typeof value === 'object'` test, so the function
recurses into them — `Object.entries` of an array being its
decimal-index/element pairs (handled by `cssArr`). -/
def cssFields : JFields → String → FlatMap → FlatMap
  | .nil, _, vars => vars
  | .cons key value rest, pfx, vars =>
    if jsStartsWith key "$" then cssFields rest pfx vars
    else
      let varName := "--" ++ pfx ++ "-" ++ key
      match value with
      | .obj fields =>
          let v1 := match fields.lookup "DEFAULT" with
                    | some d => jsInsert vars varName d
                    | none => vars
          let v2 := match fields.lookup "value" with
                    | some w => jsInsert v1 varName w
                    | none => v1
          cssFields rest pfx (cssFields fields (pfx ++ "-" ++ key) v2)
      | .arr elems =>
          cssFields rest pfx (cssArr elems 0 (pfx ++ "-" ++ key) vars)
      | .str s => cssFields rest pfx (jsInsert vars varName (.str s))
      | .num n => cssFields rest pfx (jsInsert vars varName (.num n))
      | _ => cssFields rest pfx vars

/-- `Object.entries` iteration of `getCSSVariables`'s `flatten` over a JS
array: keys are the decimal index strings "0", "1", ... (which never begin
with `$`), values are the elements. -/
def cssArr : JList → Nat → String → FlatMap → FlatMap
  | .nil, _, _, vars => vars
  | .cons value rest, i, pfx, vars =>
    let varName := "--" ++ pfx ++ "-" ++ toString i
    match value with
    | .obj fields =>
        let v1 := match fields.lookup "DEFAULT" with
                  | some d => jsInsert vars varName d
                  | none => vars
        let v2 := match fields.lookup "value" with
                  | some w => jsInsert v1 varName w
                  | none => v1
        cssArr rest (i + 1) pfx (cssFields fields (pfx ++ "-" ++ toString i) v2)
    | .arr elems =>
        cssArr rest (i + 1) pfx (cssArr elems 0 (pfx ++ "-" ++ toString i) vars)
    | .str s => cssArr rest (i + 1) pfx (jsInsert vars varName (.str s))
    | .num n => cssArr rest (i + 1) pfx (jsInsert vars varName (.num n))
    | _ => cssArr rest (i + 1) pfx vars
end

/-- `getCSSVariables()` of the core module: flattens the (cached) token
document into `--prsm-*` custom-property pairs, starting from prefix `prsm`. -/
def getCSSVariables (tokens : JFields) : FlatMap := cssFields tokens "prsm" []


/-! # JS coercion helpers used by the generators -/

/-- Truthiness of a JS value (for `x || fallback`). -/
def jsTruthy : JValue → Bool
  | .str s => s.length != 0
  | .num n => n != 0
  | .bool b => b
  | .arr _ => true
  | .obj _ => true
  | _ => false

mutual
/-- String coercion of a JS value, as in a template literal `${v}`. -/
def jsDisplay : JValue → String
  | .str s => s
  | .num n => toString n
  | .bool b => if b then "true" else "false"
  | .null => "null"
  | .undef => "undefined"
  | .arr es => jsDisplayList es
  | .obj _ => "[object Object]"

/-- `Array.prototype.toString`: elements joined with `","`, null and
undefined elements rendered empty. -/
def jsDisplayList : JList → String
  | .nil => ""
  | .cons v .nil =>
    (match v with | .null => "" | .undef => "" | _ => jsDisplay v)
  | .cons v rest =>
    (match v with | .null => "" | .undef => "" | _ => jsDisplay v) ++ "," ++ jsDisplayList rest
end

/-- JS property read on an object that is known to exist (never throws):
a missing property reads as `undefined`. -/
def jsGetField (fields : JFields) (name : String) : JValue :=
  match fields.lookup name with
  | some v => v
  | none => (.undef)

/-- An optional chain `root.p1?.p2?...`: undefined and null short-circuit to
undefined, and a property read on a primitive or array yields undefined. -/
def jsChain : JValue → List String → JValue
  | v, [] => v
  | .obj fs, name :: rest => jsChain (jsGetField fs name) rest
  | _, _ :: rest => jsChain .undef rest

/-- `${expr || fallback}` in a template literal: display the value if truthy,
otherwise the (already displayed) fallback literal. -/
def jsOrDisplay (v : JValue) (fallback : String) : String :=
  if jsTruthy v then jsDisplay v else fallback

/-! # Template text of the generators

The CSS/config template literals of build.js are reproduced verbatim below,
split at their `${...}` interpolation points (braces are written `\x7b`/
`\x7d` and apostrophes `\x27`). -/

def baseSeg0 : String := "/**\n * PRSMTECH Design Tokens - Base CSS Variables\n * Generated from variables.json\n *\n * @generated "
def baseSeg1 : String := "\n */\n\n:root \x7b\n"
-- interpolations for base: new Date().toISOString()

def baseDark : String := "\x7d\n\n/* Dark mode */\n[data-theme=\"dark\"],\n.dark,\n:root.dark \x7b\n  --prsm-slide-background: var(--prsm-dark-background);\n  --prsm-slide-backgroundAlt: var(--prsm-dark-backgroundAlt);\n  --prsm-slide-text: var(--prsm-dark-text);\n  --prsm-slide-textMuted: var(--prsm-dark-textMuted);\n  --prsm-slide-heading: var(--prsm-dark-heading);\n  --prsm-slide-link: var(--prsm-dark-link);\n  --prsm-slide-linkHover: var(--prsm-dark-linkHover);\n  --prsm-slide-border: var(--prsm-dark-border);\n  --prsm-slide-codeBg: var(--prsm-dark-codeBg);\n  --prsm-slide-codeText: var(--prsm-dark-codeText);\n\x7d\n"

def slidevSeg0 : String := "/**\n * PRSMTECH Slidev Theme\n *\n * @generated "
def slidevSeg1 : String := "\n */\n\n@import \x27./base.css\x27;\n\n/* Slidev-specific overrides */\n.slidev-layout \x7b\n  --slidev-theme-primary: var(--prsm-colors-primary-500);\n  --slidev-theme-secondary: var(--prsm-colors-secondary-500);\n  --slidev-theme-accent: var(--prsm-colors-primary-600);\n\n  --slidev-slide-width: "
def slidevSeg2 : String := "px;\n  --slidev-slide-height: "
def slidevSeg3 : String := "px;\n\n  font-family: var(--prsm-typography-fontFamily-sans);\n  background: var(--prsm-slide-background);\n  color: var(--prsm-slide-text);\n  padding: "
def slidevSeg4 : String := ";\n\x7d\n\n.slidev-layout h1,\n.slidev-layout h2,\n.slidev-layout h3 \x7b\n  font-family: var(--prsm-typography-fontFamily-heading);\n  color: var(--prsm-slide-heading);\n  font-weight: var(--prsm-typography-fontWeight-bold);\n\x7d\n\n.slidev-layout h1 \x7b\n  font-size: var(--prsm-typography-fontSize-5xl);\n  line-height: var(--prsm-typography-lineHeight-tight);\n  margin-bottom: var(--prsm-spacing-lg);\n\x7d\n\n.slidev-layout h2 \x7b\n  font-size: var(--prsm-typography-fontSize-3xl);\n  margin-bottom: var(--prsm-spacing-md);\n\x7d\n\n.slidev-layout h3 \x7b\n  font-size: var(--prsm-typography-fontSize-2xl);\n  margin-bottom: var(--prsm-spacing-sm);\n\x7d\n\n.slidev-layout p \x7b\n  font-size: var(--prsm-typography-fontSize-lg);\n  line-height: var(--prsm-typography-lineHeight-relaxed);\n  color: var(--prsm-slide-text);\n\x7d\n\n.slidev-layout a \x7b\n  color: var(--prsm-slide-link);\n  text-decoration: none;\n  transition: color var(--prsm-transitions-duration-fast);\n\x7d\n\n.slidev-layout a:hover \x7b\n  color: var(--prsm-slide-linkHover);\n  text-decoration: underline;\n\x7d\n\n.slidev-layout code:not(.shiki) \x7b\n  font-family: var(--prsm-typography-fontFamily-mono);\n  font-size: var(--prsm-components-code-fontSize);\n  background: var(--prsm-slide-codeBg);\n  color: var(--prsm-slide-codeText);\n  padding: var(--prsm-components-code-padding);\n  border-radius: var(--prsm-components-code-borderRadius);\n\x7d\n\n.slidev-layout blockquote \x7b\n  border-left: "
def slidevSeg5 : String := " solid var(--prsm-components-blockquote-borderColor);\n  background: var(--prsm-colors-primary-50);\n  padding: var(--prsm-components-blockquote-padding);\n  margin: var(--prsm-spacing-md) 0;\n  font-style: italic;\n\x7d\n\n.slidev-layout ul,\n.slidev-layout ol \x7b\n  padding-left: var(--prsm-components-list-indentation);\n  margin: var(--prsm-spacing-sm) 0;\n\x7d\n\n.slidev-layout li \x7b\n  margin-bottom: var(--prsm-spacing-2);\n\x7d\n\n.slidev-layout li::marker \x7b\n  color: var(--prsm-components-list-bulletColor);\n\x7d\n\n/* Cover slide */\n.slidev-layout.cover \x7b\n  background: var(--prsm-gradients-primary);\n  color: var(--prsm-colors-neutral-50);\n\x7d\n\n.slidev-layout.cover h1 \x7b\n  color: var(--prsm-colors-neutral-50);\n\x7d\n\n/* Two-column layout */\n.slidev-layout.two-column \x7b\n  display: grid;\n  grid-template-columns: 1fr 1fr;\n  gap: var(--prsm-spacing-xl);\n\x7d\n\n/* PRSMTECH brand footer */\n.slidev-layout::after \x7b\n  content: \x27PRSMTECH\x27;\n  position: fixed;\n  bottom: 20px;\n  right: 40px;\n  font-family: var(--prsm-typography-fontFamily-heading);\n  font-size: var(--prsm-typography-fontSize-sm);\n  font-weight: var(--prsm-typography-fontWeight-bold);\n  color: var(--prsm-colors-primary-500);\n  opacity: 0.6;\n\x7d\n"
-- interpolations for slidev: new Date().toISOString() | variables.slide?.dimensions?.slidev?.width || 980 | variables.slide?.dimensions?.slidev?.height || 552 | variables.slide?.padding?.slidev || '40px' | variables.components?.blockquote?.borderWidth || '4px'

def revealSeg0 : String := "/**\n * PRSMTECH Reveal.js Theme\n *\n * @generated "
def revealSeg1 : String := "\n */\n\n@import \x27./base.css\x27;\n\n/* Reveal.js theme registration */\nsection.has-light-background,\nsection.has-light-background h1,\nsection.has-light-background h2,\nsection.has-light-background h3,\nsection.has-light-background h4,\nsection.has-light-background h5,\nsection.has-light-background h6 \x7b\n  color: var(--prsm-slide-text);\n\x7d\n\n.reveal \x7b\n  font-family: var(--prsm-typography-fontFamily-sans);\n  font-size: var(--prsm-typography-fontSize-xl);\n  font-weight: var(--prsm-typography-fontWeight-normal);\n  color: var(--prsm-slide-text);\n\x7d\n\n.reveal .slides \x7b\n  text-align: left;\n\x7d\n\n.reveal .slides section \x7b\n  padding: "
def revealSeg2 : String := ";\n\x7d\n\n.reveal h1,\n.reveal h2,\n.reveal h3,\n.reveal h4,\n.reveal h5,\n.reveal h6 \x7b\n  margin: 0 0 var(--prsm-spacing-md) 0;\n  font-family: var(--prsm-typography-fontFamily-heading);\n  font-weight: var(--prsm-typography-fontWeight-bold);\n  line-height: var(--prsm-typography-lineHeight-tight);\n  color: var(--prsm-slide-heading);\n  text-transform: none;\n  word-wrap: break-word;\n\x7d\n\n.reveal h1 \x7b\n  font-size: var(--prsm-typography-fontSize-5xl);\n  text-shadow: none;\n\x7d\n\n.reveal h2 \x7b\n  font-size: var(--prsm-typography-fontSize-4xl);\n\x7d\n\n.reveal h3 \x7b\n  font-size: var(--prsm-typography-fontSize-3xl);\n\x7d\n\n.reveal h4 \x7b\n  font-size: var(--prsm-typography-fontSize-2xl);\n\x7d\n\n.reveal p \x7b\n  margin: var(--prsm-spacing-md) 0;\n  line-height: var(--prsm-typography-lineHeight-relaxed);\n\x7d\n\n.reveal a \x7b\n  color: var(--prsm-slide-link);\n  text-decoration: none;\n  transition: color var(--prsm-transitions-duration-fast) var(--prsm-transitions-timing-ease);\n\x7d\n\n.reveal a:hover \x7b\n  color: var(--prsm-slide-linkHover);\n  text-shadow: none;\n  border: none;\n\x7d\n\n.reveal pre \x7b\n  display: block;\n  position: relative;\n  width: 100%;\n  margin: var(--prsm-spacing-md) auto;\n  text-align: left;\n  font-size: var(--prsm-components-code-fontSize);\n  font-family: var(--prsm-typography-fontFamily-mono);\n  line-height: var(--prsm-components-code-lineHeight);\n  word-wrap: break-word;\n  box-shadow: var(--prsm-shadows-md);\n  background: var(--prsm-slide-codeBg);\n  border-radius: var(--prsm-borderRadius-md);\n\x7d\n\n.reveal code \x7b\n  font-family: var(--prsm-typography-fontFamily-mono);\n  text-transform: none;\n  tab-size: 2;\n\x7d\n\n.reveal pre code \x7b\n  display: block;\n  padding: var(--prsm-spacing-md);\n  overflow: auto;\n  max-height: 400px;\n  word-wrap: normal;\n\x7d\n\n.reveal blockquote \x7b\n  display: block;\n  position: relative;\n  width: 95%;\n  margin: var(--prsm-spacing-md) auto;\n  padding: var(--prsm-components-blockquote-padding);\n  background: var(--prsm-colors-primary-50);\n  border-left: "
def revealSeg3 : String := " solid var(--prsm-colors-primary-500);\n  font-style: italic;\n\x7d\n\n.reveal blockquote p:first-child,\n.reveal blockquote p:last-child \x7b\n  display: inline-block;\n\x7d\n\n.reveal ul,\n.reveal ol \x7b\n  display: inline-block;\n  text-align: left;\n  margin: 0 0 0 var(--prsm-components-list-indentation);\n\x7d\n\n.reveal ul li,\n.reveal ol li \x7b\n  margin-bottom: var(--prsm-spacing-2);\n\x7d\n\n.reveal ul li::marker,\n.reveal ol li::marker \x7b\n  color: var(--prsm-components-list-bulletColor);\n\x7d\n\n.reveal table \x7b\n  margin: auto;\n  border-collapse: collapse;\n  border-spacing: 0;\n\x7d\n\n.reveal table th \x7b\n  font-weight: var(--prsm-typography-fontWeight-bold);\n  background: var(--prsm-components-table-headerBackground);\n\x7d\n\n.reveal table th,\n.reveal table td \x7b\n  text-align: left;\n  padding: var(--prsm-components-table-cellPadding);\n  border-bottom: 1px solid var(--prsm-components-table-borderColor);\n\x7d\n\n/* Title slide */\n.reveal .slides > section.title-slide \x7b\n  background: var(--prsm-gradients-primary);\n  color: var(--prsm-colors-neutral-50);\n\x7d\n\n.reveal .slides > section.title-slide h1,\n.reveal .slides > section.title-slide h2 \x7b\n  color: var(--prsm-colors-neutral-50);\n\x7d\n\n/* Progress bar */\n.reveal .progress \x7b\n  background: rgba(0, 0, 0, 0.2);\n  color: var(--prsm-colors-primary-500);\n\x7d\n\n.reveal .progress span \x7b\n  background: var(--prsm-colors-primary-500);\n  transition: width var(--prsm-transitions-duration-normal) var(--prsm-transitions-timing-ease);\n\x7d\n\n/* Controls */\n.reveal .controls \x7b\n  color: var(--prsm-colors-primary-500);\n\x7d\n\n/* Slide number */\n.reveal .slide-number \x7b\n  font-family: var(--prsm-typography-fontFamily-mono);\n  font-size: var(--prsm-typography-fontSize-sm);\n  color: var(--prsm-slide-textMuted);\n  background-color: transparent;\n\x7d\n"
-- interpolations for reveal: new Date().toISOString() | variables.slide?.padding?.reveal || '40px 80px' | variables.components?.blockquote?.borderWidth || '4px'

def webslidesSeg0 : String := "/**\n * PRSMTECH WebSlides Theme\n *\n * @generated "
def webslidesSeg1 : String := "\n */\n\n@import \x27./base.css\x27;\n\n/* WebSlides base overrides */\n#webslides \x7b\n  font-family: var(--prsm-typography-fontFamily-sans);\n  font-size: var(--prsm-typography-fontSize-lg);\n  color: var(--prsm-slide-text);\n\x7d\n\n#webslides section \x7b\n  background: var(--prsm-slide-background);\n  padding: "
def webslidesSeg2 : String := ";\n\x7d\n\n#webslides h1,\n#webslides h2,\n#webslides h3,\n#webslides h4 \x7b\n  font-family: var(--prsm-typography-fontFamily-heading);\n  font-weight: var(--prsm-typography-fontWeight-bold);\n  color: var(--prsm-slide-heading);\n  margin-bottom: var(--prsm-spacing-md);\n\x7d\n\n#webslides h1 \x7b\n  font-size: var(--prsm-typography-fontSize-6xl);\n  line-height: var(--prsm-typography-lineHeight-tight);\n\x7d\n\n#webslides h2 \x7b\n  font-size: var(--prsm-typography-fontSize-4xl);\n\x7d\n\n#webslides h3 \x7b\n  font-size: var(--prsm-typography-fontSize-3xl);\n\x7d\n\n#webslides p \x7b\n  line-height: var(--prsm-typography-lineHeight-relaxed);\n  margin-bottom: var(--prsm-spacing-md);\n\x7d\n\n#webslides a \x7b\n  color: var(--prsm-slide-link);\n  text-decoration: none;\n  border-bottom: 2px solid transparent;\n  transition: all var(--prsm-transitions-duration-fast);\n\x7d\n\n#webslides a:hover \x7b\n  color: var(--prsm-slide-linkHover);\n  border-bottom-color: var(--prsm-slide-linkHover);\n\x7d\n\n#webslides code,\n#webslides pre \x7b\n  font-family: var(--prsm-typography-fontFamily-mono);\n  font-size: var(--prsm-components-code-fontSize);\n\x7d\n\n#webslides code \x7b\n  background: var(--prsm-slide-codeBg);\n  color: var(--prsm-slide-codeText);\n  padding: var(--prsm-components-code-padding);\n  border-radius: var(--prsm-components-code-borderRadius);\n\x7d\n\n#webslides pre \x7b\n  background: var(--prsm-slide-codeBg);\n  padding: var(--prsm-spacing-md);\n  border-radius: var(--prsm-borderRadius-md);\n  overflow-x: auto;\n  margin: var(--prsm-spacing-md) 0;\n\x7d\n\n#webslides pre code \x7b\n  background: transparent;\n  padding: 0;\n\x7d\n\n#webslides blockquote \x7b\n  border-left: "
def webslidesSeg3 : String := " solid var(--prsm-colors-primary-500);\n  background: var(--prsm-colors-primary-50);\n  padding: var(--prsm-components-blockquote-padding);\n  margin: var(--prsm-spacing-lg) 0;\n  font-style: italic;\n\x7d\n\n#webslides ul,\n#webslides ol \x7b\n  padding-left: var(--prsm-components-list-indentation);\n  margin: var(--prsm-spacing-md) 0;\n\x7d\n\n#webslides li \x7b\n  margin-bottom: var(--prsm-spacing-2);\n  line-height: var(--prsm-typography-lineHeight-relaxed);\n\x7d\n\n#webslides li::marker \x7b\n  color: var(--prsm-components-list-bulletColor);\n\x7d\n\n/* WebSlides components */\n\n/* Background variations */\n.bg-prsm-primary \x7b\n  background-color: var(--prsm-colors-primary-500);\n  color: var(--prsm-colors-neutral-50);\n\x7d\n\n.bg-prsm-secondary \x7b\n  background-color: var(--prsm-colors-secondary-500);\n  color: var(--prsm-colors-neutral-50);\n\x7d\n\n.bg-prsm-gradient \x7b\n  background: var(--prsm-gradients-primary);\n  color: var(--prsm-colors-neutral-50);\n\x7d\n\n.bg-prsm-dark \x7b\n  background: var(--prsm-dark-background);\n  color: var(--prsm-dark-text);\n\x7d\n\n/* Text colors */\n.text-prsm-primary \x7b\n  color: var(--prsm-colors-primary-500);\n\x7d\n\n.text-prsm-secondary \x7b\n  color: var(--prsm-colors-secondary-500);\n\x7d\n\n/* Card component */\n.prsm-card \x7b\n  background: var(--prsm-slide-background);\n  border: 1px solid var(--prsm-slide-border);\n  border-radius: var(--prsm-borderRadius-lg);\n  padding: var(--prsm-spacing-lg);\n  box-shadow: var(--prsm-shadows-md);\n\x7d\n\n/* Grid layouts */\n.prsm-grid-2 \x7b\n  display: grid;\n  grid-template-columns: repeat(2, 1fr);\n  gap: var(--prsm-spacing-xl);\n\x7d\n\n.prsm-grid-3 \x7b\n  display: grid;\n  grid-template-columns: repeat(3, 1fr);\n  gap: var(--prsm-spacing-lg);\n\x7d\n\n/* Navigation */\n#navigation \x7b\n  background: var(--prsm-slide-background);\n  border-top: 1px solid var(--prsm-slide-border);\n\x7d\n\n#navigation a \x7b\n  color: var(--prsm-slide-text);\n\x7d\n\n#navigation a:hover \x7b\n  color: var(--prsm-colors-primary-500);\n\x7d\n\n/* Counter */\n#counter \x7b\n  font-family: var(--prsm-typography-fontFamily-mono);\n  font-size: var(--prsm-typography-fontSize-sm);\n  color: var(--prsm-slide-textMuted);\n\x7d\n"
-- interpolations for webslides: new Date().toISOString() | variables.slide?.padding?.webslides || '80px' | variables.components?.blockquote?.borderWidth || '4px'

def tailwindSeg0 : String := "/**\n * PRSMTECH Tailwind CSS Configuration\n *\n * Import this in your tailwind.config.js:\n *\n * const prsmTheme = require(\x27./themes/prsmtech/dist/tailwind.config.js\x27);\n *\n * module.exports = \x7b\n *   theme: \x7b\n *     extend: \x7b\n *       ...prsmTheme.theme.extend\n *     \x7d\n *   \x7d\n * \x7d\n *\n * @generated "
def tailwindSeg1 : String := "\n */\n\nmodule.exports = "
def tailwindSeg2 : String := ";\n"
-- interpolations for tailwind: new Date().toISOString() | JSON.stringify(config, null, 2)


/-! # Framework-stylesheet generators (build.js lines 157-676)

`now` stands for `new Date().toISOString()`, the only impure input.  These
three generators contain no failing operation (all token lookups are optional
chains with `||` fallbacks), hence they are total functions of the document
and the clock reading. -/

/-- generateSlidevCSS (build.js lines 157-283). -/
def generateSlidevCSS (doc : JFields) (now : String) : String :=
  slidevSeg0 ++ now ++ slidevSeg1
    ++ jsOrDisplay (jsChain (.obj doc) ["slide", "dimensions", "slidev", "width"]) "980"
    ++ slidevSeg2
    ++ jsOrDisplay (jsChain (.obj doc) ["slide", "dimensions", "slidev", "height"]) "552"
    ++ slidevSeg3
    ++ jsOrDisplay (jsChain (.obj doc) ["slide", "padding", "slidev"]) "40px"
    ++ slidevSeg4
    ++ jsOrDisplay (jsChain (.obj doc) ["components", "blockquote", "borderWidth"]) "4px"
    ++ slidevSeg5

/-- generateRevealCSS (build.js lines 288-487). -/
def generateRevealCSS (doc : JFields) (now : String) : String :=
  revealSeg0 ++ now ++ revealSeg1
    ++ jsOrDisplay (jsChain (.obj doc) ["slide", "padding", "reveal"]) "40px 80px"
    ++ revealSeg2
    ++ jsOrDisplay (jsChain (.obj doc) ["components", "blockquote", "borderWidth"]) "4px"
    ++ revealSeg3

/-- generateWebSlidesCSS (build.js lines 492-677). -/
def generateWebSlidesCSS (doc : JFields) (now : String) : String :=
  webslidesSeg0 ++ now ++ webslidesSeg1
    ++ jsOrDisplay (jsChain (.obj doc) ["slide", "padding", "webslides"]) "80px"
    ++ webslidesSeg2
    ++ jsOrDisplay (jsChain (.obj doc) ["components", "blockquote", "borderWidth"]) "4px"
    ++ webslidesSeg3

/-! # Base-stylesheet generator (build.js lines 79-152) -/

/-- One emitted custom-property line `  --prsm-${key}: ${value};`. -/
def cssVarLine (key : String) (v : JValue) : String :=
  "  --prsm-" ++ key ++ ": " ++ jsDisplay v ++ ";"

/-- The category accumulator object of generateBaseCSS (lines 93-101); the
`shadows` bucket is declared in the source but never pushed to (border- and
shadow-prefixed keys both land in `borders`). -/
structure Categories where
  colors : List String
  typography : List String
  spacing : List String
  borders : List String
  shadows : List String
  transitions : List String
  other : List String
deriving DecidableEq, Repr

def Categories.empty : Categories := ⟨[], [], [], [], [], [], []⟩

/-- One step of the classification loop of generateBaseCSS (lines 103-119),
first match wins. -/
def categorizeStep (cats : Categories) (key : String) (v : JValue) : Categories :=
  let cssVar := cssVarLine key v
  if jsStartsWith key "colors" || jsStartsWith key "slide" || jsStartsWith key "dark" then
    { cats with colors := cats.colors ++ [cssVar] }
  else if jsStartsWith key "typography" || jsStartsWith key "font" then
    { cats with typography := cats.typography ++ [cssVar] }
  else if jsStartsWith key "spacing" then
    { cats with spacing := cats.spacing ++ [cssVar] }
  else if jsStartsWith key "border" || jsStartsWith key "shadow" then
    { cats with borders := cats.borders ++ [cssVar] }
  else if jsStartsWith key "transition" then
    { cats with transitions := cats.transitions ++ [cssVar] }
  else
    { cats with other := cats.other ++ [cssVar] }

/-- The whole classification loop over the flattened entries, in order. -/
def categorize (flat : FlatMap) : Categories :=
  flat.foldl (fun cats p => categorizeStep cats p.1 p.2) Categories.empty

/-- The text assembly of generateBaseCSS, given the flattened map: bucket
every entry, emit the bucket sections in fixed order (the Other section only
when non-empty) and append the fixed dark-mode override block. -/
def baseCSSBody (flat : FlatMap) (now : String) : String :=
  let cats := categorize flat
  let css := baseSeg0 ++ now ++ baseSeg1
  let css := css ++ "  /* Colors */\n" ++ jsJoin "\n" cats.colors ++ "\n\n"
  let css := css ++ "  /* Typography */\n" ++ jsJoin "\n" cats.typography ++ "\n\n"
  let css := css ++ "  /* Spacing */\n" ++ jsJoin "\n" cats.spacing ++ "\n\n"
  let css := css ++ "  /* Borders & Shadows */\n" ++ jsJoin "\n" cats.borders ++ "\n\n"
  let css := css ++ "  /* Transitions */\n" ++ jsJoin "\n" cats.transitions ++ "\n\n"
  let css := if cats.other.length > 0 then
      css ++ "  /* Other */\n" ++ jsJoin "\n" cats.other ++ "\n\n"
    else css
  css ++ baseDark

/-- generateBaseCSS (build.js lines 79-152): flatten the document (the only
failing step — a fontFamily TypeError propagates out of the generator), then
assemble the stylesheet text. -/
def generateBaseCSS (doc : JFields) (now : String) : Except String String := do
  let flat ← flattenObject doc ""
  .ok (baseCSSBody flat now)


/-! # Utility-framework-config generator (build.js lines 682-732) -/

/-- Throwing JS property read `base.name`: reading a property of undefined or
null is a TypeError; a property of any other non-object reads as undefined. -/
def jsPropE : JValue → String → Except String JValue
  | .undef, name => .error ("TypeError: Cannot read properties of undefined (reading " ++ name ++ ")")
  | .null, name => .error ("TypeError: Cannot read properties of null (reading " ++ name ++ ")")
  | .obj fs, name => .ok (jsGetField fs name)
  | _, _ => .ok (.undef)

/-- Array entries as `Object.entries`/spread sees them: decimal index keys. -/
def JList.indexedFrom : JList → Nat → List (String × JValue)
  | .nil, _ => []
  | .cons v rest, i => (toString i, v) :: rest.indexedFrom (i + 1)

/-- String entries as `Object.entries`/spread sees them: one single-character
string per decimal index. -/
def charsIndexed : List Char → Nat → List (String × JValue)
  | [], _ => []
  | c :: cs, i => (toString i, .str (String.singleton c)) :: charsIndexed cs (i + 1)

/-- Object-literal spread `{...v}`: own enumerable entries of an object,
index entries of an array or string, nothing for any other value. -/
def spreadEntries : JValue → List (String × JValue)
  | .obj fs => fs.toList
  | .arr es => es.indexedFrom 0
  | .str s => charsIndexed s.data 0
  | _ => []

/-- `Object.entries(v)`: throws on undefined and null, otherwise like spread. -/
def jsEntriesE : JValue → Except String (List (String × JValue))
  | .undef => .error "TypeError: Cannot convert undefined or null to object"
  | .null => .error "TypeError: Cannot convert undefined or null to object"
  | .obj fs => .ok fs.toList
  | .arr es => .ok (es.indexedFrom 0)
  | .str s => .ok (charsIndexed s.data 0)
  | _ => .ok []

/-- One fontSize entry, mapped by `typeof val === 'object' ? val.value : val`
(build.js lines 700-705).  An object without a string there keeps whatever
`val.value` reads (undefined is later omitted by JSON.stringify); null is
`'object'` too, so reading `.value` of it throws. -/
def twFontSizeEntry : String × JValue → Except String (String × JValue)
  | (k, .obj fs) => .ok (k, jsGetField fs "value")
  | (k, .arr _) => .ok (k, .undef)
  | (_, .null) => .error "TypeError: Cannot read properties of null (reading value)"
  | (k, v) => .ok (k, v)

/-- One hexadecimal digit (for JSON string escapes of control characters). -/
def hexDigit (n : Nat) : String :=
  String.singleton ("0123456789abcdef".data.getD n '0')

/-- JSON.stringify escaping of one character. -/
def jsonEscapeChar (c : Char) : String :=
  if c = '"' then "\\\""
  else if c = '\\' then "\\\\"
  else if c = '\n' then "\\n"
  else if c = '\r' then "\\r"
  else if c = '\t' then "\\t"
  else if c.toNat = 8 then "\\b"
  else if c.toNat = 12 then "\\f"
  else if c.toNat < 32 then "\\u00" ++ hexDigit (c.toNat / 16) ++ hexDigit (c.toNat % 16)
  else String.singleton c

/-- JSON.stringify escaping of a string body. -/
def jsonEscape (s : String) : String :=
  String.join (s.data.map jsonEscapeChar)

/-- Indentation produced by `JSON.stringify(-, null, 2)` at nesting depth d. -/
def jsonIndent (d : Nat) : String :=
  String.mk (List.replicate (2 * d) ' ')

mutual
/-- `JSON.stringify(v, null, 2)` at nesting depth d. The `.undef` case is the
top-level result for undefined, never emitted inside objects or arrays. -/
def jsonStr : JValue → Nat → String
  | .str s, _ => "\"" ++ jsonEscape s ++ "\""
  | .num n, _ => toString n
  | .bool b, _ => if b then "true" else "false"
  | .null, _ => "null"
  | .undef, _ => "undefined"
  | .arr es, d =>
    let items := jsonElems es (d + 1)
    if items.length = 0 then "[]"
    else "[\n" ++ jsJoin ",\n" (items.map (fun it => jsonIndent (d + 1) ++ it)) ++ "\n" ++ jsonIndent d ++ "]"
  | .obj fs, d =>
    let items := jsonItems fs (d + 1)
    if items.length = 0 then "\x7b\x7d"
    else "\x7b\n" ++ jsJoin ",\n" (items.map (fun it => jsonIndent (d + 1) ++ it)) ++ "\n" ++ jsonIndent d ++ "\x7d"

/-- Rendered `"key": value` items of an object; undefined-valued properties
are omitted entirely. -/
def jsonItems : JFields → Nat → List String
  | .nil, _ => []
  | .cons k v rest, d =>
    match v with
    | .undef => jsonItems rest d
    | _ => ("\"" ++ jsonEscape k ++ "\": " ++ jsonStr v d) :: jsonItems rest d

/-- Rendered elements of an array; undefined elements render as null. -/
def jsonElems : JList → Nat → List String
  | .nil, _ => []
  | .cons v rest, d =>
    (match v with
     | .undef => "null"
     | _ => jsonStr v d) :: jsonElems rest d
end

/-- The `config` object literal of generateTailwindConfig (build.js lines
683-710), with property reads performed in JS evaluation order so that the
first failing read produces the exception. -/
def buildTwConfig (doc : JFields) : Except String JValue := do
  let colors := jsGetField doc "colors"
  let primary ← jsPropE colors "primary"
  let secondary ← jsPropE colors "secondary"
  let neutral ← jsPropE colors "neutral"
  let semantic ← jsPropE colors "semantic"
  let prsm := jsAssign [("primary", primary), ("secondary", secondary), ("neutral", neutral)]
    (spreadEntries semantic)
  let typography := jsGetField doc "typography"
  let ff ← jsPropE typography "fontFamily"
  let sans ← jsPropE ff "sans"
  let heading ← jsPropE ff "heading"
  let mono ← jsPropE ff "mono"
  let display ← jsPropE ff "display"
  let fontSize ← jsPropE typography "fontSize"
  let fsEntries ← jsEntriesE fontSize
  let fs ← fsEntries.mapM twFontSizeEntry
  .ok (.obj (.ofList [("theme", jobj [("extend", jobj
    [("colors", jobj [("prsm", .obj (.ofList prsm))]),
     ("fontFamily", jobj [("sans", sans), ("heading", heading), ("mono", mono), ("display", display)]),
     ("fontSize", .obj (.ofList fs)),
     ("borderRadius", jsGetField doc "borderRadius"),
     ("boxShadow", jsGetField doc "shadows")])])]))

/-- generateTailwindConfig (build.js lines 682-732): documentation header,
timestamp, then `module.exports = ${JSON.stringify(config, null, 2)};`. -/
def generateTailwindConfig (doc : JFields) (now : String) : Except String String := do
  let config ← buildTwConfig doc
  .ok (tailwindSeg0 ++ now ++ tailwindSeg1 ++ jsonStr config 0 ++ tailwindSeg2)

/-! # The Orchestrator (build.js lines 737-791) -/

/-- One build result record ({ framework, success, path } or
{ framework, success, error }); the written file path is replaced by the
generated content, file-system effects being outside the model. -/
structure Artifact where
  framework : String
  success : Bool
  content : Option String
  error : Option String
deriving DecidableEq, Repr

/-- The try/catch around one generator invocation (build.js lines 767-773):
a thrown exception becomes a failed artifact, a result a successful one. -/
def runGenerator (framework : String) (result : Except String String) : Artifact :=
  match result with
  | .ok content => ⟨framework, true, some content, none⟩
  | .error e => ⟨framework, false, none, some e⟩

/-- build() (build.js lines 737-791), restricted to content generation:
the five generators of the registry are invoked in order against the same
loaded document, each in its own try/catch, so a throwing generator yields
one failed artifact and never aborts its siblings.  generateSlidevCSS,
generateRevealCSS and generateWebSlidesCSS are total, hence always wrapped
as successes. -/
def build (doc : JFields) (now : String) : List Artifact :=
  [runGenerator "base" (generateBaseCSS doc now),
   runGenerator "slidev" (.ok (generateSlidevCSS doc now)),
   runGenerator "reveal" (.ok (generateRevealCSS doc now)),
   runGenerator "webslides" (.ok (generateWebSlidesCSS doc now)),
   runGenerator "tailwind" (generateTailwindConfig doc now)]

/-- `results.every(r => r.success)` — the batch success flag returned by
build() and turned into the process exit code. -/
def buildSuccess (doc : JFields) (now : String) : Bool :=
  (build doc now).all (·.success)


/-! # Spec-side definitions used to state the claims -/

/-- A scalar token value (string or number). -/
def isScalar : JValue → Bool
  | .str _ => true
  | .num _ => true
  | _ => false

/-- The six category buckets named by the spec (`borders` standing for the
combined "Borders & Shadows" section). -/
inductive Cat where
  | colors
  | typography
  | spacing
  | borders
  | transitions
  | other
deriving DecidableEq, Repr

/-- The classification priority order exactly as the spec states it: prefix
colors/slide/dark, then typography/font, then spacing, then border/shadow,
then transition, else other. -/
def specCat (key : String) : Cat :=
  if jsStartsWith key "colors" || jsStartsWith key "slide" || jsStartsWith key "dark" then .colors
  else if jsStartsWith key "typography" || jsStartsWith key "font" then .typography
  else if jsStartsWith key "spacing" then .spacing
  else if jsStartsWith key "border" || jsStartsWith key "shadow" then .borders
  else if jsStartsWith key "transition" then .transitions
  else .other

/-- The bucket list a category selects inside the accumulator object. -/
def Categories.get (cats : Categories) : Cat → List String
  | .colors => cats.colors
  | .typography => cats.typography
  | .spacing => cats.spacing
  | .borders => cats.borders
  | .transitions => cats.transitions
  | .other => cats.other

/-- The spec's name for a font list: names containing a space are wrapped in
double quotes, the others left bare, all joined with `", "`. -/
def specFontJoin (names : List String) : String :=
  jsJoin ", " (names.map (fun f => if jsContainsChar f ' ' then "\"" ++ f ++ "\"" else f))

mutual
/-- A "plain" token value: a string, a number, or a plain object — no
arrays, booleans, nulls, and no reserved key names anywhere.  On plain
documents generic recursion is the only Flattener rule that can fire. -/
def plainVal : JValue → Bool
  | .str _ => true
  | .num _ => true
  | .obj fs => plainFields fs
  | _ => false

/-- Fields of a plain object: every key is nonempty, does not begin with the
`$` metadata marker and is none of the reserved names `value`, `DEFAULT`,
`fontFamily`; every value is plain. -/
def plainFields : JFields → Bool
  | .nil => true
  | .cons k v rest =>
    (k.length != 0) && !jsStartsWith k "$" && k != "value" && k != "DEFAULT" &&
      k != "fontFamily" && plainVal v && plainFields rest
end

/-- Entry lookup in a flattened map ("the flattened map contains an entry at
path p with value v" is `mapLookup m p = some v`). -/
def mapLookup : FlatMap → String → Option JValue
  | [], _ => none
  | (k, v) :: rest, name => if k = name then some v else mapLookup rest name

/-- The raw emission sequence of generic flattening on plain documents: one
entry per scalar leaf at its dash-joined path, in traversal order (a
spec-side reference sequence; no overwriting semantics). -/
def emitFields : JFields → String → List (String × JValue)
  | .nil, _ => []
  | .cons k v rest, pfx =>
    (match v with
     | .str s => [(dashPre pfx ++ k, .str s)]
     | .num n => [(dashPre pfx ++ k, .num n)]
     | .obj fs => emitFields fs (dashPre pfx ++ k)
     | _ => []) ++ emitFields rest pfx

/-! # Lemmas: JS object insertion and lookup -/

theorem fst_jsUpdate (p : String × JValue) (k : String) (v : JValue) :
    (if p.1 == k then (k, v) else p).1 = p.1 := by
  by_cases h : p.1 = k <;> simp [h]

theorem keys_jsInsert (acc : FlatMap) (k : String) (v : JValue) :
    (jsInsert acc k v).map Prod.fst =
      if acc.any (fun p => p.1 == k) then acc.map Prod.fst else acc.map Prod.fst ++ [k] := by
  unfold jsInsert
  split
  · simp only [List.map_map]
    exact List.map_congr_left fun p _ => fst_jsUpdate p k v
  · simp

theorem mem_keys_jsInsert (acc : FlatMap) (k : String) (v : JValue) (k' : String) :
    k' ∈ (jsInsert acc k v).map Prod.fst ↔ k' ∈ acc.map Prod.fst ∨ k' = k := by
  rw [keys_jsInsert]
  split
  · rename_i h
    simp only [List.any_eq_true, beq_iff_eq] at h
    obtain ⟨p, hp, rfl⟩ := h
    constructor
    · exact fun hm => Or.inl hm
    · rintro (hm | rfl)
      · exact hm
      · exact List.mem_map.mpr ⟨p, hp, rfl⟩
  · simp


theorem mapLookup_update_ne (acc : FlatMap) (k k' : String) (v : JValue) (h : k' ≠ k) :
    mapLookup (acc.map (fun p => if p.1 == k then (k, v) else p)) k' = mapLookup acc k' := by
  induction acc with
  | nil => rfl
  | cons q rest ih =>
    simp only [List.map_cons]
    by_cases hq : q.1 = k
    · rw [show (if q.1 == k then (k, v) else q) = (k, v) from by simp [hq]]
      simp only [mapLookup]
      rw [if_neg (Ne.symm h), if_neg (by rw [hq]; exact fun hh => h hh.symm)]
      exact ih
    · rw [show (if q.1 == k then (k, v) else q) = q from by simp [hq]]
      simp only [mapLookup]
      by_cases hqk : q.1 = k'
      · rw [if_pos hqk, if_pos hqk]
      · rw [if_neg hqk, if_neg hqk]
        exact ih

theorem mapLookup_update_self (acc : FlatMap) (k : String) (v : JValue)
    (h : acc.any (fun p => p.1 == k) = true) :
    mapLookup (acc.map (fun p => if p.1 == k then (k, v) else p)) k = some v := by
  induction acc with
  | nil => cases h
  | cons q rest ih =>
    by_cases hq : q.1 = k
    · simp only [List.map_cons]
      rw [show (if q.1 == k then (k, v) else q) = (k, v) from by simp [hq]]
      simp [mapLookup]
    · simp only [List.any_cons, Bool.or_eq_true, beq_iff_eq] at h
      rcases h with h | h
      · exact absurd h hq
      · simp only [List.map_cons]
        rw [show (if q.1 == k then (k, v) else q) = q from by simp [hq]]
        simp only [mapLookup]
        rw [if_neg hq]
        exact ih h

theorem mapLookup_append_ne (acc : FlatMap) (k k' : String) (v : JValue) (h : k' ≠ k) :
    mapLookup (acc ++ [(k, v)]) k' = mapLookup acc k' := by
  induction acc with
  | nil => simp [mapLookup, Ne.symm h]
  | cons q rest ih =>
    simp only [List.cons_append, mapLookup]
    by_cases hq : q.1 = k' <;> simp [hq, ih]

theorem mapLookup_append_self (acc : FlatMap) (k : String) (v : JValue)
    (h : acc.any (fun p => p.1 == k) = false) :
    mapLookup (acc ++ [(k, v)]) k = some v := by
  induction acc with
  | nil => simp [mapLookup]
  | cons q rest ih =>
    simp only [List.any_cons, Bool.or_eq_false_iff, beq_eq_false_iff_ne] at h
    simp only [List.cons_append, mapLookup]
    rw [if_neg h.1]
    exact ih (by simpa using h.2)

theorem mapLookup_jsInsert_self (acc : FlatMap) (k : String) (v : JValue) :
    mapLookup (jsInsert acc k v) k = some v := by
  unfold jsInsert
  cases h : acc.any (fun p => p.1 == k) with
  | true => rw [if_pos rfl]; exact mapLookup_update_self acc k v h
  | false => rw [if_neg (by decide)]; exact mapLookup_append_self acc k v h

theorem mapLookup_jsInsert_ne (acc : FlatMap) (k k' : String) (v : JValue) (h : k' ≠ k) :
    mapLookup (jsInsert acc k v) k' = mapLookup acc k' := by
  unfold jsInsert
  cases hc : acc.any (fun p => p.1 == k) with
  | true => rw [if_pos rfl]; exact mapLookup_update_ne acc k k' v h
  | false => rw [if_neg (by decide)]; exact mapLookup_append_ne acc k k' v h

theorem mapLookup_jsAssign_notmem (acc src : FlatMap) (k' : String)
    (h : k' ∉ src.map Prod.fst) :
    mapLookup (jsAssign acc src) k' = mapLookup acc k' := by
  induction src generalizing acc with
  | nil => rfl
  | cons p rest ih =>
    simp only [List.map_cons, List.mem_cons, not_or] at h
    show mapLookup (jsAssign (jsInsert acc p.1 p.2) rest) k' = _
    rw [ih _ h.2, mapLookup_jsInsert_ne _ _ _ _ h.1]

theorem mem_keys_jsAssign (acc src : FlatMap) (k' : String) :
    k' ∈ (jsAssign acc src).map Prod.fst ↔
      k' ∈ acc.map Prod.fst ∨ k' ∈ src.map Prod.fst := by
  induction src generalizing acc with
  | nil => simp [jsAssign]
  | cons p rest ih =>
    show k' ∈ (jsAssign (jsInsert acc p.1 p.2) rest).map Prod.fst ↔ _
    rw [ih, mem_keys_jsInsert]
    simp only [List.map_cons, List.mem_cons]
    tauto

theorem mapLookup_eq_none_of_notmem (acc : FlatMap) (k' : String)
    (h : k' ∉ acc.map Prod.fst) : mapLookup acc k' = none := by
  induction acc with
  | nil => rfl
  | cons q rest ih =>
    simp only [List.map_cons, List.mem_cons, not_or] at h
    simp only [mapLookup]
    rw [if_neg (fun hh => h.1 hh.symm)]
    exact ih h.2

theorem mapLookup_jsAssign_right (acc src : FlatMap) (k' : String)
    (hs : (src.map Prod.fst).Nodup) (h : k' ∉ acc.map Prod.fst) :
    mapLookup (jsAssign acc src) k' = mapLookup src k' := by
  induction src generalizing acc with
  | nil =>
    show mapLookup acc k' = none
    exact mapLookup_eq_none_of_notmem acc k' h
  | cons p rest ih =>
    simp only [List.map_cons, List.nodup_cons] at hs
    show mapLookup (jsAssign (jsInsert acc p.1 p.2) rest) k' = _
    by_cases hk : k' = p.1
    · subst hk
      rw [mapLookup_jsAssign_notmem _ _ _ hs.1, mapLookup_jsInsert_self]
      simp [mapLookup]
    · simp only [mapLookup]
      rw [if_neg (fun hh => hk hh.symm)]
      refine ih (jsInsert acc p.1 p.2) hs.2 ?_
      rw [mem_keys_jsInsert]
      push_neg
      exact ⟨h, hk⟩

theorem nodup_keys_jsInsert (acc : FlatMap) (k : String) (v : JValue)
    (h : (acc.map Prod.fst).Nodup) : ((jsInsert acc k v).map Prod.fst).Nodup := by
  rw [keys_jsInsert]
  split
  · exact h
  · rename_i hany
    simp only [List.any_eq_true, beq_iff_eq] at hany
    push_neg at hany
    refine List.Nodup.append h (List.nodup_singleton k) ?_
    intro a ha hb
    simp only [List.mem_singleton] at hb
    subst hb
    obtain ⟨p, hp, rfl⟩ := List.mem_map.mp ha
    exact hany p hp rfl

theorem nodup_keys_jsAssign (acc src : FlatMap)
    (h : (acc.map Prod.fst).Nodup) : ((jsAssign acc src).map Prod.fst).Nodup := by
  induction src generalizing acc with
  | nil => exact h
  | cons p rest ih =>
    exact ih (jsInsert acc p.1 p.2) (nodup_keys_jsInsert _ _ _ h)

theorem jsInsert_eq_append (acc : FlatMap) (k : String) (v : JValue)
    (h : k ∉ acc.map Prod.fst) : jsInsert acc k v = acc ++ [(k, v)] := by
  unfold jsInsert
  rw [if_neg]
  simp only [List.any_eq_true, beq_iff_eq]
  rintro ⟨p, hp, rfl⟩
  exact h (List.mem_map.mpr ⟨p, hp, rfl⟩)

theorem jsAssign_eq_append (acc src : FlatMap)
    (h : ∀ k ∈ src.map Prod.fst, k ∉ acc.map Prod.fst)
    (hs : (src.map Prod.fst).Nodup) : jsAssign acc src = acc ++ src := by
  induction src generalizing acc with
  | nil => simp [jsAssign]
  | cons p rest ih =>
    simp only [List.map_cons, List.nodup_cons] at hs
    show jsAssign (jsInsert acc p.1 p.2) rest = _
    rw [jsInsert_eq_append _ _ _ (h p.1 (by simp)), ih]
    · simp
    · intro k hk
      simp only [List.map_append, List.mem_append]
      push_neg
      refine ⟨h k (by simp [hk]), ?_⟩
      simp only [List.map_cons, List.map_nil, List.mem_singleton]
      rintro rfl
      exact hs.1 hk
    · exact hs.2


/-! # Step equations of the Flattener, one per branch -/

theorem flattenList_nil (pfx : String) (acc : FlatMap) :
    flattenList .nil pfx acc = .ok acc := rfl

theorem flattenList_cons_meta (key : String) (fields rest : JFields) (pfx : String)
    (acc : FlatMap) (h : jsStartsWith key "$" = true) :
    flattenList (.cons key (.obj fields) rest) pfx acc = flattenList rest pfx acc := by
  simp [flattenList, h]

theorem flattenList_cons_value (key s : String) (fields rest : JFields) (pfx : String)
    (acc : FlatMap) (h : jsStartsWith key "$" = false)
    (hv : fields.lookup "value" = some (.str s)) :
    flattenList (.cons key (.obj fields) rest) pfx acc =
      flattenList rest pfx (jsInsert acc (dashPre pfx ++ key) (.str s)) := by
  simp [flattenList, h, hv]

theorem flattenList_cons_default (key : String) (d : JValue) (fields rest : JFields)
    (pfx : String) (acc : FlatMap) (h : jsStartsWith key "$" = false)
    (hnv : ∀ s, fields.lookup "value" ≠ some (.str s))
    (hd : fields.lookup "DEFAULT" = some d) :
    flattenList (.cons key (.obj fields) rest) pfx acc =
      match flattenList fields (dashPre pfx ++ key) [] with
      | .ok sub => flattenList rest pfx (jsAssign (jsInsert acc (dashPre pfx ++ key) d) sub)
      | .error e => .error e := by
  rcases hv : fields.lookup "value" with _ | v
  · simp only [flattenList, h, Bool.false_eq_true, if_false, hv, hd]
    cases flattenList fields (dashPre pfx ++ key) [] <;> rfl
  · cases v with
    | str s => exact absurd hv (hnv s)
    | _ =>
      simp only [flattenList, h, Bool.false_eq_true, if_false, hv, hd]
      cases flattenList fields (dashPre pfx ++ key) [] <;> rfl

theorem flattenList_cons_font (fields rest : JFields) (pfx : String) (acc : FlatMap)
    (hnv : ∀ s, fields.lookup "value" ≠ some (.str s))
    (hd : fields.lookup "DEFAULT" = none) :
    flattenList (.cons "fontFamily" (.obj fields) rest) pfx acc =
      match fontFamilyFold fields (dashPre pfx ++ "fontFamily") acc with
      | .ok acc' => flattenList rest pfx acc'
      | .error e => .error e := by
  have h : jsStartsWith "fontFamily" "$" = false := by decide
  rcases hv : fields.lookup "value" with _ | v
  · simp only [flattenList, h, Bool.false_eq_true, if_false, hv, hd]
    cases fontFamilyFold fields (dashPre pfx ++ "fontFamily") acc <;> rfl
  · cases v with
    | str s => exact absurd hv (hnv s)
    | _ =>
      simp only [flattenList, h, Bool.false_eq_true, if_false, hv, hd]
      cases fontFamilyFold fields (dashPre pfx ++ "fontFamily") acc <;> rfl

theorem flattenList_cons_generic (key : String) (fields rest : JFields) (pfx : String)
    (acc : FlatMap) (h : jsStartsWith key "$" = false)
    (hnv : ∀ s, fields.lookup "value" ≠ some (.str s))
    (hd : fields.lookup "DEFAULT" = none) (hf : key ≠ "fontFamily") :
    flattenList (.cons key (.obj fields) rest) pfx acc =
      match flattenList fields (dashPre pfx ++ key) [] with
      | .ok sub => flattenList rest pfx (jsAssign acc sub)
      | .error e => .error e := by
  rcases hv : fields.lookup "value" with _ | v
  · simp only [flattenList, h, Bool.false_eq_true, if_false, hv, hd, beq_iff_eq, hf,
        if_false]
    cases flattenList fields (dashPre pfx ++ key) [] <;> rfl
  · cases v with
    | str s => exact absurd hv (hnv s)
    | _ =>
      simp only [flattenList, h, Bool.false_eq_true, if_false, hv, hd, beq_iff_eq, hf,
        if_false]
      cases flattenList fields (dashPre pfx ++ key) [] <;> rfl

theorem flattenList_cons_str (key s : String) (rest : JFields) (pfx : String)
    (acc : FlatMap) :
    flattenList (.cons key (.str s) rest) pfx acc =
      flattenList rest pfx (jsInsert acc (dashPre pfx ++ key) (.str s)) := rfl

theorem flattenList_cons_num (key : String) (n : Int) (rest : JFields) (pfx : String)
    (acc : FlatMap) :
    flattenList (.cons key (.num n) rest) pfx acc =
      flattenList rest pfx (jsInsert acc (dashPre pfx ++ key) (.num n)) := rfl

theorem flattenList_cons_arr (key : String) (xs : JList) (rest : JFields) (pfx : String)
    (acc : FlatMap) :
    flattenList (.cons key (.arr xs) rest) pfx acc = flattenList rest pfx acc := rfl

theorem flattenList_cons_bool (key : String) (b : Bool) (rest : JFields) (pfx : String)
    (acc : FlatMap) :
    flattenList (.cons key (.bool b) rest) pfx acc = flattenList rest pfx acc := rfl

theorem flattenList_cons_null (key : String) (rest : JFields) (pfx : String)
    (acc : FlatMap) :
    flattenList (.cons key JValue.null rest) pfx acc = flattenList rest pfx acc := rfl


/-! # String path helpers -/

theorem str_len_ne_zero (sv : String) (h : sv ≠ "") : sv.length ≠ 0 := by
  intro h0
  apply h
  apply String.ext
  have : sv.data.length = 0 := h0
  simpa using List.length_eq_zero.mp this

theorem dashPre_eq (pfx : String) (h : pfx ≠ "") : dashPre pfx = pfx ++ "-" := by
  unfold dashPre
  rw [if_pos]
  simpa using str_len_ne_zero pfx h

theorem dashPre_empty : dashPre "" = "" := rfl

theorem append_ne_empty_right (a b : String) (hb : b ≠ "") : a ++ b ≠ "" := by
  intro h
  apply str_len_ne_zero b hb
  have hl := congrArg String.length h
  rw [String.length_append] at hl
  have h0 : ("" : String).length = 0 := rfl
  rw [h0] at hl
  omega

theorem str_append_cancel_left (a b c : String) (h : a ++ b = a ++ c) : b = c := by
  apply String.ext
  have := congrArg String.data h
  rw [String.data_append, String.data_append] at this
  exact List.append_cancel_left this

theorem str_append_cancel_right (a b c : String) (h : a ++ c = b ++ c) : a = b := by
  apply String.ext
  have := congrArg String.data h
  rw [String.data_append, String.data_append] at this
  exact List.append_cancel_right this

theorem str_ne_of_extend (pk t : String) : pk ++ "-" ++ t ≠ pk := by
  intro h
  have hl := congrArg String.length h
  rw [String.length_append, String.length_append] at hl
  have h1 : ("-" : String).length = 1 := rfl
  rw [h1] at hl
  omega

theorem str_eq_empty_of_len (sv : String) (h : sv.length = 0) : sv = "" := by
  apply String.ext
  have hd : sv.data.length = 0 := h
  simpa using List.length_eq_zero.mp hd

theorem dashPre_compose (pfx key t : String) :
    ∃ t', dashPre (dashPre pfx ++ key) ++ t = dashPre pfx ++ t' := by
  by_cases hpk : dashPre pfx ++ key = ""
  · refine ⟨t, ?_⟩
    have h1 : dashPre pfx = "" := by
      have hl := congrArg String.length hpk
      rw [String.length_append] at hl
      have h0 : ("" : String).length = 0 := rfl
      rw [h0] at hl
      exact str_eq_empty_of_len _ (by omega)
    rw [hpk, dashPre_empty, h1]
  · refine ⟨key ++ "-" ++ t, ?_⟩
    rw [dashPre_eq _ hpk, String.append_assoc (dashPre pfx) key "-", String.append_assoc]

/-- Induction over an object spine alone (the mutual recursor needs all three
motives, which plain `induction` cannot use). -/
theorem JFields.indOn {motive : JFields → Prop} (hnil : motive .nil)
    (hcons : ∀ k v rest, motive rest → motive (.cons k v rest)) : ∀ fs, motive fs
  | .nil => hnil
  | .cons k v rest => hcons k v rest (JFields.indOn hnil hcons rest)

/-! # Structural lemmas about the Flattener -/

theorem fontFamilyFold_keys : ∀ (fields : JFields) (base : String) (acc m : FlatMap),
    fontFamilyFold fields base acc = .ok m → ∀ k' ∈ m.map Prod.fst,
    k' ∈ acc.map Prod.fst ∨ ∃ fk, k' = base ++ "-" ++ fk := by
  intro fields
  induction fields using JFields.indOn with
  | hnil =>
    intro base acc m hok k' hk'
    cases hok
    exact Or.inl hk'
  | hcons fk v rest ih =>
    intro base acc m hok k' hk'
    have step : ∀ w, fontFamilyFold rest base (jsInsert acc (base ++ "-" ++ fk) w) = .ok m →
        k' ∈ acc.map Prod.fst ∨ ∃ fk', k' = base ++ "-" ++ fk' := by
      intro w hok'
      rcases ih base _ m hok' k' hk' with h | h
      · rw [mem_keys_jsInsert] at h
        rcases h with h | rfl
        · exact Or.inl h
        · exact Or.inr ⟨fk, rfl⟩
      · exact Or.inr h
    cases v with
    | arr elems =>
      simp only [fontFamilyFold] at hok
      cases hq : quoteFonts elems with
      | error e =>
        rw [hq] at hok
        have hbad : (Except.error e : Except String FlatMap) = .ok m := hok
        cases hbad
      | ok quoted =>
        rw [hq] at hok
        have hok2 : fontFamilyFold rest base
            (jsInsert acc (base ++ "-" ++ fk) (.str (jsJoin ", " quoted))) = .ok m := hok
        exact step _ hok2
    | str sv => exact step _ hok
    | num n => exact step _ hok
    | bool b => exact step _ hok
    | null => exact step _ hok
    | undef => exact step _ hok
    | obj fs => exact step _ hok

theorem flattenList_keys_shape : ∀ (fields : JFields) (pfx : String) (acc m : FlatMap),
    flattenList fields pfx acc = .ok m → ∀ k', k' ∈ m.map Prod.fst →
    k' ∈ acc.map Prod.fst ∨ ∃ t, k' = dashPre pfx ++ t := by
  intro fields pfx acc
  induction fields, pfx, acc using flattenList.induct with
  | case1 pfx acc =>
    intro m hok k' hk'
    cases hok
    exact Or.inl hk'
  | case2 key rest pfx acc fields hmeta ih =>
    intro m hok k' hk'
    rw [flattenList_cons_meta _ _ _ _ _ hmeta] at hok
    exact ih m hok k' hk'
  | case3 key rest pfx acc pre fields hmeta sv hv ih =>
    intro m hok k' hk'
    rw [flattenList_cons_value _ _ _ _ _ _ (by simpa using hmeta) hv] at hok
    rcases ih m hok k' hk' with h | h
    · rw [mem_keys_jsInsert] at h
      rcases h with h | rfl
      · exact Or.inl h
      · exact Or.inr ⟨key, rfl⟩
    · exact Or.inr h
  | case4 key rest pfx acc pre fields hmeta d hd hnv ihsub ih =>
    intro m hok k' hk'
    rw [flattenList_cons_default _ _ _ _ _ _ (by simpa using hmeta) hnv hd] at hok
    cases hsub : flattenList fields (dashPre pfx ++ key) [] with
    | error e => rw [hsub] at hok; cases hok
    | ok sub =>
      rw [hsub] at hok
      rcases ih sub m hok k' hk' with h | h
      · rw [mem_keys_jsAssign] at h
        rcases h with h | h
        · rw [mem_keys_jsInsert] at h
          rcases h with h | rfl
          · exact Or.inl h
          · exact Or.inr ⟨key, rfl⟩
        · rcases ihsub sub hsub k' h with h' | ⟨t, rfl⟩
          · simp at h'
          · obtain ⟨t', ht'⟩ := dashPre_compose pfx key t
            exact Or.inr ⟨t', ht'⟩
      · exact Or.inr h
  | case5 key rest pfx acc fields hmeta hd hfont hnv ih =>
    intro m hok k' hk'
    have hkey : key = "fontFamily" := by simpa using hfont
    subst hkey
    rw [flattenList_cons_font _ _ _ _ hnv hd] at hok
    cases hff : fontFamilyFold fields (dashPre pfx ++ "fontFamily") acc with
    | error e => rw [hff] at hok; cases hok
    | ok acc' =>
      rw [hff] at hok
      rcases ih acc' m hok k' hk' with h | h
      · rcases fontFamilyFold_keys fields _ acc acc' hff k' h with h' | ⟨fk, rfl⟩
        · exact Or.inl h'
        · exact Or.inr ⟨"fontFamily" ++ "-" ++ fk, by
            simp [String.append_assoc]⟩
      · exact Or.inr h
  | case6 key rest pfx acc pre fields hmeta hd hfont hnv ihsub ih =>
    intro m hok k' hk'
    rw [flattenList_cons_generic _ _ _ _ _ (by simpa using hmeta) hnv hd
      (by simpa using hfont)] at hok
    cases hsub : flattenList fields (dashPre pfx ++ key) [] with
    | error e => rw [hsub] at hok; cases hok
    | ok sub =>
      rw [hsub] at hok
      rcases ih sub m hok k' hk' with h | h
      · rw [mem_keys_jsAssign] at h
        rcases h with h | h
        · exact Or.inl h
        · rcases ihsub sub hsub k' h with h' | ⟨t, rfl⟩
          · simp at h'
          · obtain ⟨t', ht'⟩ := dashPre_compose pfx key t
            exact Or.inr ⟨t', ht'⟩
      · exact Or.inr h
  | case7 key rest pfx acc pre sv ih =>
    intro m hok k' hk'
    rw [flattenList_cons_str] at hok
    rcases ih m hok k' hk' with h | h
    · rw [mem_keys_jsInsert] at h
      rcases h with h | rfl
      · exact Or.inl h
      · exact Or.inr ⟨key, rfl⟩
    · exact Or.inr h
  | case8 key rest pfx acc pre n ih =>
    intro m hok k' hk'
    rw [flattenList_cons_num] at hok
    rcases ih m hok k' hk' with h | h
    · rw [mem_keys_jsInsert] at h
      rcases h with h | rfl
      · exact Or.inl h
      · exact Or.inr ⟨key, rfl⟩
    · exact Or.inr h
  | case9 key v rest pfx acc hnobj hnstr hnnum ih =>
    intro m hok k' hk'
    have harr : flattenList (.cons key v rest) pfx acc = flattenList rest pfx acc := by
      cases v with
      | arr xs => exact flattenList_cons_arr _ _ _ _ _
      | bool b => exact flattenList_cons_bool _ _ _ _ _
      | null => exact flattenList_cons_null _ _ _ _
      | undef => rfl
      | str sv => exact absurd rfl (hnstr sv)
      | num n => exact absurd rfl (hnnum n)
      | obj fs => exact absurd rfl (hnobj fs)
    rw [harr] at hok
    exact ih m hok k' hk'


theorem str_mid_dash_ne_empty (a b : String) : a ++ "-" ++ b ≠ "" := by
  intro h
  have hl := congrArg String.length h
  rw [String.length_append, String.length_append] at hl
  have h1 : ("-" : String).length = 1 := rfl
  have h0 : ("" : String).length = 0 := rfl
  rw [h1, h0] at hl
  omega

theorem contains_dash_of_split (sv a b : String) (h : sv = a ++ "-" ++ b) :
    jsContainsChar sv '-' = true := by
  subst h
  unfold jsContainsChar
  rw [String.data_append, String.data_append]
  have hd : ("-" : String).data = ['-'] := rfl
  rw [hd]
  simp

/-- Every successful run on a cons document passes through a successful run
on the tail, from some intermediate accumulator. -/
theorem flattenList_cons_exists (key : String) (v : JValue) (rest : JFields)
    (pfx : String) (acc m : FlatMap)
    (hok : flattenList (.cons key v rest) pfx acc = .ok m) :
    ∃ acc', flattenList rest pfx acc' = .ok m := by
  cases v with
  | str sv => exact ⟨_, by rw [flattenList_cons_str] at hok; exact hok⟩
  | num n => exact ⟨_, by rw [flattenList_cons_num] at hok; exact hok⟩
  | arr xs => exact ⟨acc, by rw [flattenList_cons_arr] at hok; exact hok⟩
  | bool b => exact ⟨acc, by rw [flattenList_cons_bool] at hok; exact hok⟩
  | null => exact ⟨acc, by rw [flattenList_cons_null] at hok; exact hok⟩
  | undef => exact ⟨acc, hok⟩
  | obj fields =>
    cases hmeta : jsStartsWith key "$" with
    | true => exact ⟨acc, by rw [flattenList_cons_meta _ _ _ _ _ hmeta] at hok; exact hok⟩
    | false =>
      rcases hv : fields.lookup "value" with _ | w
      on_goal 2 => cases w with
        | str sv =>
          exact ⟨_, by rw [flattenList_cons_value _ _ _ _ _ _ hmeta hv] at hok; exact hok⟩
        | _ => ?_
      all_goals {
        have hnv : ∀ s, fields.lookup "value" ≠ some (.str s) := by
          intro s hs
          rw [hv] at hs
          cases hs
        rcases hd : fields.lookup "DEFAULT" with _ | d
        · by_cases hf : key = "fontFamily"
          · subst hf
            rw [flattenList_cons_font _ _ _ _ hnv hd] at hok
            cases hff : fontFamilyFold fields (dashPre pfx ++ "fontFamily") acc with
            | error e => rw [hff] at hok; cases hok
            | ok acc' =>
              rw [hff] at hok
              exact ⟨acc', hok⟩
          · rw [flattenList_cons_generic _ _ _ _ _ hmeta hnv hd hf] at hok
            cases hsub : flattenList fields (dashPre pfx ++ key) [] with
            | error e => rw [hsub] at hok; cases hok
            | ok sub =>
              rw [hsub] at hok
              exact ⟨jsAssign acc sub, hok⟩
        · rw [flattenList_cons_default _ _ _ _ _ _ hmeta hnv hd] at hok
          cases hsub : flattenList fields (dashPre pfx ++ key) [] with
          | error e => rw [hsub] at hok; cases hok
          | ok sub =>
            rw [hsub] at hok
            exact ⟨jsAssign (jsInsert acc (dashPre pfx ++ key) d) sub, hok⟩
      }

theorem fontFamilyFold_preserve : ∀ (fields : JFields) (base : String) (acc m : FlatMap)
    (key0 : String) (v0 : JValue),
    fontFamilyFold fields base acc = .ok m → mapLookup acc key0 = some v0 →
    (∀ fk, key0 ≠ base ++ "-" ++ fk) → mapLookup m key0 = some v0 := by
  intro fields
  induction fields using JFields.indOn with
  | hnil =>
    intro base acc m key0 v0 hok hacc hcond
    cases hok
    exact hacc
  | hcons fk v rest ih =>
    intro base acc m key0 v0 hok hacc hcond
    have hne : key0 ≠ base ++ "-" ++ fk := hcond fk
    cases v with
    | arr elems =>
      simp only [fontFamilyFold] at hok
      cases hq : quoteFonts elems with
      | error e =>
        rw [hq] at hok
        have hbad : (Except.error e : Except String FlatMap) = .ok m := hok
        cases hbad
      | ok quoted =>
        rw [hq] at hok
        have hok2 : fontFamilyFold rest base
            (jsInsert acc (base ++ "-" ++ fk) (.str (jsJoin ", " quoted))) = .ok m := hok
        exact ih base _ m key0 v0 hok2 (by rw [mapLookup_jsInsert_ne _ _ _ _ hne]; exact hacc) hcond
    | str sv =>
      exact ih base _ m key0 v0 hok (by rw [mapLookup_jsInsert_ne _ _ _ _ hne]; exact hacc) hcond
    | num n =>
      exact ih base _ m key0 v0 hok (by rw [mapLookup_jsInsert_ne _ _ _ _ hne]; exact hacc) hcond
    | bool b =>
      exact ih base _ m key0 v0 hok (by rw [mapLookup_jsInsert_ne _ _ _ _ hne]; exact hacc) hcond
    | null =>
      exact ih base _ m key0 v0 hok (by rw [mapLookup_jsInsert_ne _ _ _ _ hne]; exact hacc) hcond
    | undef =>
      exact ih base _ m key0 v0 hok (by rw [mapLookup_jsInsert_ne _ _ _ _ hne]; exact hacc) hcond
    | obj fs =>
      exact ih base _ m key0 v0 hok (by rw [mapLookup_jsInsert_ne _ _ _ _ hne]; exact hacc) hcond


theorem flattenList_preserve : ∀ (fields : JFields) (pfx : String) (acc m : FlatMap)
    (key0 : String) (v0 : JValue), pfx ≠ "" →
    flattenList fields pfx acc = .ok m → mapLookup acc key0 = some v0 →
    (∀ f, f ∈ fields.toList.map Prod.fst →
      key0 ≠ pfx ++ "-" ++ f ∧ ∀ t, key0 ≠ pfx ++ "-" ++ f ++ "-" ++ t) →
    mapLookup m key0 = some v0 := by
  intro fields
  induction fields using JFields.indOn with
  | hnil =>
    intro pfx acc m key0 v0 hpfx hok hacc hcond
    cases hok
    exact hacc
  | hcons f v rest ih =>
    intro pfx acc m key0 v0 hpfx hok hacc hcond
    have hdp : dashPre pfx = pfx ++ "-" := dashPre_eq pfx hpfx
    have hcnd := hcond f (by simp [JFields.toList])
    have hcrest : ∀ f', f' ∈ rest.toList.map Prod.fst →
        key0 ≠ pfx ++ "-" ++ f' ∧ ∀ t, key0 ≠ pfx ++ "-" ++ f' ++ "-" ++ t := by
      intro f' hf'
      refine hcond f' ?_
      simp only [JFields.toList, List.map_cons, List.mem_cons]
      exact Or.inr hf'
    have hne1 : key0 ≠ dashPre pfx ++ f := by rw [hdp]; exact hcnd.1
    have hsubkeys : ∀ (fs : JFields) (sub : FlatMap),
        flattenList fs (dashPre pfx ++ f) ([] : FlatMap) = .ok sub →
        key0 ∉ sub.map Prod.fst := by
      intro fs sub hsub hmem
      rcases flattenList_keys_shape _ _ _ _ hsub key0 hmem with h' | ⟨t, ht⟩
      · simp at h'
      · have hpk0 : dashPre pfx ++ f ≠ "" := by
          rw [hdp]
          exact str_mid_dash_ne_empty pfx f
        rw [dashPre_eq _ hpk0, hdp] at ht
        exact hcnd.2 t (by rw [ht, String.append_assoc, String.append_assoc,
          String.append_assoc])
    cases v with
    | str sv =>
      rw [flattenList_cons_str] at hok
      exact ih pfx _ m key0 v0 hpfx hok
        (by rw [mapLookup_jsInsert_ne _ _ _ _ hne1]; exact hacc) hcrest
    | num n =>
      rw [flattenList_cons_num] at hok
      exact ih pfx _ m key0 v0 hpfx hok
        (by rw [mapLookup_jsInsert_ne _ _ _ _ hne1]; exact hacc) hcrest
    | arr xs =>
      rw [flattenList_cons_arr] at hok
      exact ih pfx _ m key0 v0 hpfx hok hacc hcrest
    | bool b =>
      rw [flattenList_cons_bool] at hok
      exact ih pfx _ m key0 v0 hpfx hok hacc hcrest
    | null =>
      rw [flattenList_cons_null] at hok
      exact ih pfx _ m key0 v0 hpfx hok hacc hcrest
    | undef =>
      exact ih pfx _ m key0 v0 hpfx hok hacc hcrest
    | obj fields' =>
      cases hmeta : jsStartsWith f "$" with
      | true =>
        rw [flattenList_cons_meta _ _ _ _ _ hmeta] at hok
        exact ih pfx _ m key0 v0 hpfx hok hacc hcrest
      | false =>
        rcases hv : fields'.lookup "value" with _ | w
        on_goal 2 => cases w with
          | str sv =>
            rw [flattenList_cons_value _ _ _ _ _ _ hmeta hv] at hok
            exact ih pfx _ m key0 v0 hpfx hok
              (by rw [mapLookup_jsInsert_ne _ _ _ _ hne1]; exact hacc) hcrest
          | _ => ?_
        all_goals {
          have hnv : ∀ s, fields'.lookup "value" ≠ some (.str s) := by
            intro s hs
            rw [hv] at hs
            cases hs
          rcases hd : fields'.lookup "DEFAULT" with _ | d
          · by_cases hf : f = "fontFamily"
            · subst hf
              rw [flattenList_cons_font _ _ _ _ hnv hd] at hok
              cases hff : fontFamilyFold fields' (dashPre pfx ++ "fontFamily") acc with
              | error e => rw [hff] at hok; cases hok
              | ok acc' =>
                rw [hff] at hok
                have hpres : mapLookup acc' key0 = some v0 := by
                  refine fontFamilyFold_preserve fields' _ acc acc' key0 v0 hff hacc ?_
                  intro fk
                  rw [hdp]
                  exact hcnd.2 fk
                exact ih pfx acc' m key0 v0 hpfx hok hpres hcrest
            · rw [flattenList_cons_generic _ _ _ _ _ hmeta hnv hd hf] at hok
              cases hsub : flattenList fields' (dashPre pfx ++ f) [] with
              | error e => rw [hsub] at hok; cases hok
              | ok sub =>
                rw [hsub] at hok
                have hpres : mapLookup (jsAssign acc sub) key0 = some v0 := by
                  rw [mapLookup_jsAssign_notmem _ _ _ (hsubkeys _ sub hsub)]
                  exact hacc
                exact ih pfx _ m key0 v0 hpfx hok hpres hcrest
          · rw [flattenList_cons_default _ _ _ _ _ _ hmeta hnv hd] at hok
            cases hsub : flattenList fields' (dashPre pfx ++ f) [] with
            | error e => rw [hsub] at hok; cases hok
            | ok sub =>
              rw [hsub] at hok
              have hpres : mapLookup (jsAssign (jsInsert acc (dashPre pfx ++ f) d) sub) key0
                  = some v0 := by
                rw [mapLookup_jsAssign_notmem _ _ _ (hsubkeys _ sub hsub),
                  mapLookup_jsInsert_ne _ _ _ _ hne1]
                exact hacc
              exact ih pfx _ m key0 v0 hpfx hok hpres hcrest
        }


theorem fontFamilyFold_nodup : ∀ (fields : JFields) (base : String) (acc m : FlatMap),
    fontFamilyFold fields base acc = .ok m → (acc.map Prod.fst).Nodup →
    (m.map Prod.fst).Nodup := by
  intro fields
  induction fields using JFields.indOn with
  | hnil =>
    intro base acc m hok hacc
    cases hok
    exact hacc
  | hcons fk v rest ih =>
    intro base acc m hok hacc
    cases v with
    | arr elems =>
      simp only [fontFamilyFold] at hok
      cases hq : quoteFonts elems with
      | error e =>
        rw [hq] at hok
        have hbad : (Except.error e : Except String FlatMap) = .ok m := hok
        cases hbad
      | ok quoted =>
        rw [hq] at hok
        have hok2 : fontFamilyFold rest base
            (jsInsert acc (base ++ "-" ++ fk) (.str (jsJoin ", " quoted))) = .ok m := hok
        exact ih base _ m hok2 (nodup_keys_jsInsert _ _ _ hacc)
    | str sv => exact ih base _ m hok (nodup_keys_jsInsert _ _ _ hacc)
    | num n => exact ih base _ m hok (nodup_keys_jsInsert _ _ _ hacc)
    | bool b => exact ih base _ m hok (nodup_keys_jsInsert _ _ _ hacc)
    | null => exact ih base _ m hok (nodup_keys_jsInsert _ _ _ hacc)
    | undef => exact ih base _ m hok (nodup_keys_jsInsert _ _ _ hacc)
    | obj fs => exact ih base _ m hok (nodup_keys_jsInsert _ _ _ hacc)

theorem flattenList_nodup : ∀ (fields : JFields) (pfx : String) (acc m : FlatMap),
    flattenList fields pfx acc = .ok m → (acc.map Prod.fst).Nodup →
    (m.map Prod.fst).Nodup := by
  intro fields pfx acc
  induction fields, pfx, acc using flattenList.induct with
  | case1 pfx acc =>
    intro m hok hacc
    cases hok
    exact hacc
  | case2 key rest pfx acc fields hmeta ih =>
    intro m hok hacc
    rw [flattenList_cons_meta _ _ _ _ _ hmeta] at hok
    exact ih m hok hacc
  | case3 key rest pfx acc pre fields hmeta sv hv ih =>
    intro m hok hacc
    rw [flattenList_cons_value _ _ _ _ _ _ (by simpa using hmeta) hv] at hok
    exact ih m hok (nodup_keys_jsInsert _ _ _ hacc)
  | case4 key rest pfx acc pre fields hmeta d hd hnv ihsub ih =>
    intro m hok hacc
    rw [flattenList_cons_default _ _ _ _ _ _ (by simpa using hmeta) hnv hd] at hok
    cases hsub : flattenList fields (dashPre pfx ++ key) [] with
    | error e => rw [hsub] at hok; cases hok
    | ok sub =>
      rw [hsub] at hok
      exact ih sub m hok (nodup_keys_jsAssign _ _ (nodup_keys_jsInsert _ _ _ hacc))
  | case5 key rest pfx acc fields hmeta hd hfont hnv ih =>
    intro m hok hacc
    have hkey : key = "fontFamily" := by simpa using hfont
    subst hkey
    rw [flattenList_cons_font _ _ _ _ hnv hd] at hok
    cases hff : fontFamilyFold fields (dashPre pfx ++ "fontFamily") acc with
    | error e => rw [hff] at hok; cases hok
    | ok acc' =>
      rw [hff] at hok
      exact ih acc' m hok (fontFamilyFold_nodup fields _ acc acc' hff hacc)
  | case6 key rest pfx acc pre fields hmeta hd hfont hnv ihsub ih =>
    intro m hok hacc
    rw [flattenList_cons_generic _ _ _ _ _ (by simpa using hmeta) hnv hd
      (by simpa using hfont)] at hok
    cases hsub : flattenList fields (dashPre pfx ++ key) [] with
    | error e => rw [hsub] at hok; cases hok
    | ok sub =>
      rw [hsub] at hok
      exact ih sub m hok (nodup_keys_jsAssign _ _ hacc)
  | case7 key rest pfx acc pre sv ih =>
    intro m hok hacc
    rw [flattenList_cons_str] at hok
    exact ih m hok (nodup_keys_jsInsert _ _ _ hacc)
  | case8 key rest pfx acc pre n ih =>
    intro m hok hacc
    rw [flattenList_cons_num] at hok
    exact ih m hok (nodup_keys_jsInsert _ _ _ hacc)
  | case9 key v rest pfx acc hnobj hnstr hnnum ih =>
    intro m hok hacc
    have harr : flattenList (.cons key v rest) pfx acc = flattenList rest pfx acc := by
      cases v with
      | arr xs => exact flattenList_cons_arr _ _ _ _ _
      | bool b => exact flattenList_cons_bool _ _ _ _ _
      | null => exact flattenList_cons_null _ _ _ _
      | undef => rfl
      | str sv => exact absurd rfl (hnstr sv)
      | num n => exact absurd rfl (hnnum n)
      | obj fs => exact absurd rfl (hnobj fs)
    rw [harr] at hok
    exact ih m hok hacc

theorem flattenList_scalar_lookup : ∀ (fields : JFields) (pfx : String) (acc m : FlatMap)
    (s : String) (w : JValue), pfx ≠ "" →
    flattenList fields pfx acc = .ok m →
    (fields.toList.map Prod.fst).Nodup →
    (s, w) ∈ fields.toList → isScalar w = true → jsContainsChar s '-' = false →
    mapLookup m (pfx ++ "-" ++ s) = some w := by
  intro fields
  induction fields using JFields.indOn with
  | hnil =>
    intro pfx acc m s w hpfx hok hnd hmem hsc hdash
    simp [JFields.toList] at hmem
  | hcons f v rest ih =>
    intro pfx acc m s w hpfx hok hnd hmem hsc hdash
    have hdp : dashPre pfx = pfx ++ "-" := dashPre_eq pfx hpfx
    simp only [JFields.toList, List.map_cons, List.nodup_cons] at hnd
    simp only [JFields.toList, List.mem_cons] at hmem
    rcases hmem with hmem | hmem
    · injection hmem with hf hv
      subst hf
      subst hv
      have hcond : ∀ f', f' ∈ rest.toList.map Prod.fst →
          (pfx ++ "-" ++ s) ≠ pfx ++ "-" ++ f' ∧
            ∀ t, (pfx ++ "-" ++ s) ≠ pfx ++ "-" ++ f' ++ "-" ++ t := by
        intro f' hf'
        constructor
        · intro he
          have hsf : s = f' := str_append_cancel_left _ _ _ he
          exact hnd.1 (hsf ▸ hf')
        · intro t he
          rw [String.append_assoc (pfx ++ "-") f' "-",
            String.append_assoc (pfx ++ "-") (f' ++ "-") t] at he
          have hsplit : s = f' ++ "-" ++ t := str_append_cancel_left _ _ _ he
          rw [contains_dash_of_split s f' t hsplit] at hdash
          cases hdash
      cases w with
      | str sv =>
        rw [flattenList_cons_str, hdp] at hok
        exact flattenList_preserve rest pfx _ m _ _ hpfx hok
          (mapLookup_jsInsert_self _ _ _) hcond
      | num n =>
        rw [flattenList_cons_num, hdp] at hok
        exact flattenList_preserve rest pfx _ m _ _ hpfx hok
          (mapLookup_jsInsert_self _ _ _) hcond
      | bool b => cases hsc
      | null => cases hsc
      | undef => cases hsc
      | arr xs => cases hsc
      | obj fs => cases hsc
    · obtain ⟨acc', hok'⟩ := flattenList_cons_exists f v rest pfx acc m hok
      exact ih pfx acc' m s w hpfx hok' hnd.2 hmem hsc hdash


theorem JFields.lookup_mem : ∀ (g : JFields) (name : String) (v : JValue),
    g.lookup name = some v → (name, v) ∈ g.toList := by
  intro g
  induction g using JFields.indOn with
  | hnil => intro name v h; cases h
  | hcons k0 v0 rest ih =>
    intro name v h
    simp only [JFields.lookup] at h
    by_cases hk : k0 = name
    · rw [if_pos (by simp [hk])] at h
      injection h with h
      subst hk
      subst h
      simp [JFields.toList]
    · rw [if_neg (by simp [hk])] at h
      simp only [JFields.toList, List.mem_cons]
      exact Or.inr (ih name v h)

/-! # Claim theorems -/

/-- C2 counterexample: the claim says an array of non-string scalars makes the
Flattener fail fast with an explicit error; in fact `flattenObject` on
`{a: [1, 2]}` succeeds and silently drops the array (no entry, no error). -/
theorem claim_C2_counterexample :
    flattenObject (.ofList [("a", jarr [.num 1, .num 2])]) "" = .ok [] := by decide

/-- C2 (amended): an array value is silently dropped by the Flattener — no
entry is emitted and no error is raised, whatever the key and prefix; only
inside a `fontFamily` group does an array containing a non-string element
raise an error (the TypeError thrown by `f.includes` in JS), which fails the
affected generator. -/
theorem claim_C2_amended :
    (∀ (key : String) (xs : JList) (rest : JFields) (pfx : String) (acc : FlatMap),
      flattenList (.cons key (.arr xs) rest) pfx acc = flattenList rest pfx acc) ∧
    (∀ (fk : String) (n : Int) (pfx : String), fk ≠ "value" → fk ≠ "DEFAULT" →
      flattenObject (.ofList [("fontFamily", jobj [(fk, jarr [.num n])])]) pfx =
        .error "TypeError: f.includes is not a function") := by
  constructor
  · intro key xs rest pfx acc
    exact flattenList_cons_arr key xs rest pfx acc
  · intro fk n pfx hv hd
    have hnv : ∀ s, (JFields.ofList [(fk, jarr [.num n])]).lookup "value" ≠
        some (.str s) := by
      intro s hs
      simp only [JFields.ofList, JFields.lookup] at hs
      by_cases h : fk = "value"
      · rw [if_pos (by simp [h])] at hs
        cases hs
      · rw [if_neg (by simp [h])] at hs
        cases hs
    have hdd : (JFields.ofList [(fk, jarr [.num n])]).lookup "DEFAULT" = none := by
      simp only [JFields.ofList, JFields.lookup]
      rw [if_neg (by simp [hd])]
    show flattenList (.cons "fontFamily" (.obj (.ofList [(fk, jarr [.num n])])) .nil)
        pfx [] = .error "TypeError: f.includes is not a function"
    rw [flattenList_cons_font _ _ _ _ hnv hdd]
    rfl

/-- C3 counterexample: the claim says keys beginning with `$` are excluded
from the flattened map regardless of value shape; in fact a `$`-key holding a
scalar is emitted (the `$` check sits inside the object branch only). -/
theorem claim_C3_counterexample :
    flattenObject (.ofList [("$schema", .str "x")]) "" = .ok [("$schema", .str "x")] ∧
    mapLookup [("$schema", JValue.str "x")] "$schema" = some (.str "x") := by decide

/-- C3 (amended): a key beginning with `$` is skipped by the Flattener only
when its value is a (non-array) object; a `$`-key holding a string or number
is emitted like any scalar leaf. -/
theorem claim_C3_amended :
    (∀ (key : String) (fields rest : JFields) (pfx : String) (acc : FlatMap),
      jsStartsWith key "$" = true →
      flattenList (.cons key (.obj fields) rest) pfx acc = flattenList rest pfx acc) ∧
    (∀ (key s : String) (rest : JFields) (pfx : String) (acc : FlatMap),
      jsStartsWith key "$" = true →
      flattenList (.cons key (.str s) rest) pfx acc =
        flattenList rest pfx (jsInsert acc (dashPre pfx ++ key) (.str s))) ∧
    (∀ (key : String) (n : Int) (rest : JFields) (pfx : String) (acc : FlatMap),
      jsStartsWith key "$" = true →
      flattenList (.cons key (.num n) rest) pfx acc =
        flattenList rest pfx (jsInsert acc (dashPre pfx ++ key) (.num n))) :=
  ⟨fun key fields rest pfx acc h => flattenList_cons_meta key fields rest pfx acc h,
   fun key s rest pfx acc _ => flattenList_cons_str key s rest pfx acc,
   fun key n rest pfx acc _ => flattenList_cons_num key n rest pfx acc⟩

/-- C3 witness: the amended claim applied at `{"$meta": {a: "x"}}` (skipped)
and at `{"$schema": "y"}` (emitted). -/
theorem claim_C3_witness :
    flattenList (.cons "$meta" (jobj [("a", .str "x")]) .nil) "" [] = flattenList .nil "" [] ∧
    flattenList (.cons "$schema" (.str "y") .nil) "" [] =
      flattenList .nil "" (jsInsert [] (dashPre "" ++ "$schema") (.str "y")) :=
  ⟨claim_C3_amended.1 "$meta" _ .nil "" [] (by decide),
   claim_C3_amended.2.1 "$schema" "y" .nil "" [] (by decide)⟩

/-- C5 counterexample: the claim says a wrapper object holding exactly a
`value` key with a scalar (string or number) collapses to the parent path;
for a number it does not — `{a: {value: 7}}` flattens to an entry `a-value`
through the wrapper and no entry at `a` (the code tests
`typeof value.value === 'string'`). -/
theorem claim_C5_counterexample :
    flattenObject (.ofList [("a", jobj [("value", .num 7)])]) "" = .ok [("a-value", .num 7)] ∧
    mapLookup [("a-value", JValue.num 7)] "a" = none := by decide

/-- C5 (amended): a nested object holding exactly a `value` key with a STRING
under a non-metadata key collapses to that string at the parent path, and
processing that key adds nothing else — the recursion never descends into
the wrapper. -/
theorem claim_C5_amended : ∀ (key s : String) (rest : JFields) (pfx : String) (acc : FlatMap),
    jsStartsWith key "$" = false →
    flattenList (.cons key (.obj (.ofList [("value", .str s)])) rest) pfx acc =
      flattenList rest pfx (jsInsert acc (dashPre pfx ++ key) (.str s)) := by
  intro key s rest pfx acc h
  exact flattenList_cons_value key s _ rest pfx acc h rfl

/-- C5 witness: the amended claim applied at `{a: {value: "v"}}`. -/
theorem claim_C5_witness :
    flattenList (.cons "a" (.obj (.ofList [("value", .str "v")])) .nil) "" [] =
      flattenList .nil "" (jsInsert [] (dashPre "" ++ "a") (.str "v")) :=
  claim_C5_amended "a" "v" .nil "" [] (by decide)

/-- C6 counterexample: the claim promises, for EVERY object with a `DEFAULT`
sibling, a bare-path entry equal to the DEFAULT value and a prefixed entry
for every other sibling.  A string-valued `value` key takes precedence over
`DEFAULT` (so `{k: {value:"s", DEFAULT:"d", a:"x"}}` keeps only `k = "s"`,
losing both promised entries), and an object-valued sibling gets no entry at
its own path (`k-e` below is absent; only its descendants appear). -/
theorem claim_C6_counterexample :
    flattenObject (.ofList [("k", jobj [("value", .str "s"), ("DEFAULT", .str "d"),
        ("a", .str "x")])]) "" = .ok [("k", .str "s")] ∧
    mapLookup [("k", JValue.str "s")] "k-a" = none ∧
    flattenObject (.ofList [("k", jobj [("DEFAULT", .str "d"),
        ("e", jobj [("z", .str "1")])])]) "" =
      .ok [("k", .str "d"), ("k-DEFAULT", .str "d"), ("k-e-z", .str "1")] ∧
    mapLookup [("k", JValue.str "d"), ("k-DEFAULT", JValue.str "d"),
        ("k-e-z", JValue.str "1")] "k-e" = none := by decide

/-- C6 (amended): for a non-metadata key holding an object with a `DEFAULT`
member and no string-valued `value` member, the flattened map contains an
entry at the bare key path equal to the DEFAULT value, and a prefixed entry
for every scalar-valued (string or number) sibling key that does not itself
contain the `-` separator (sibling keys are distinct, as in any JS object). -/
theorem claim_C6_amended : ∀ (pfx k : String) (g : JFields) (d : JValue) (m : FlatMap),
    jsStartsWith k "$" = false →
    (∀ s, g.lookup "value" ≠ some (.str s)) →
    g.lookup "DEFAULT" = some d →
    (g.toList.map Prod.fst).Nodup →
    dashPre pfx ++ k ≠ "" →
    flattenObject (.ofList [(k, .obj g)]) pfx = .ok m →
    mapLookup m (dashPre pfx ++ k) = some d ∧
    (∀ s w, (s, w) ∈ g.toList → isScalar w = true → jsContainsChar s '-' = false →
      mapLookup m (dashPre pfx ++ k ++ "-" ++ s) = some w) := by
  intro pfx k g d m hmeta hnv hd hnd hpk hok
  have hok' : flattenList (.cons k (.obj g) .nil) pfx [] = .ok m := hok
  rw [flattenList_cons_default _ _ _ _ _ _ hmeta hnv hd] at hok'
  cases hsub : flattenList g (dashPre pfx ++ k) [] with
  | error e => rw [hsub] at hok'; cases hok'
  | ok sub =>
    rw [hsub] at hok'
    have hm : m = jsAssign (jsInsert [] (dashPre pfx ++ k) d) sub := by
      cases hok'
      rfl
    subst hm
    have hsubkeys : ∀ k'' ∈ sub.map Prod.fst, ∃ t, k'' = (dashPre pfx ++ k) ++ "-" ++ t := by
      intro k'' hk''
      rcases flattenList_keys_shape g _ [] sub hsub k'' hk'' with h | ⟨t, ht⟩
      · simp at h
      · rw [dashPre_eq _ hpk] at ht
        exact ⟨t, ht⟩
    have hid : jsInsert ([] : FlatMap) (dashPre pfx ++ k) d = [(dashPre pfx ++ k, d)] := rfl
    constructor
    · rw [mapLookup_jsAssign_notmem]
      · exact mapLookup_jsInsert_self _ _ _
      · intro hmem
        obtain ⟨t, ht⟩ := hsubkeys _ hmem
        exact str_ne_of_extend (dashPre pfx ++ k) t ht.symm
    · intro s w hmem hsc hdash
      have hne : (dashPre pfx ++ k) ++ "-" ++ s ≠ dashPre pfx ++ k := str_ne_of_extend _ _
      rw [mapLookup_jsAssign_right _ _ _
        (flattenList_nodup g _ [] sub hsub (by simp))
        (by rw [hid]; simpa using hne)]
      exact flattenList_scalar_lookup g (dashPre pfx ++ k) [] sub s w hpk hsub hnd hmem hsc hdash

/-- C6 witness: the amended claim applied to the spec's own example
`{colors: {primary: {500: "#0057e6", DEFAULT: "#0057e6"}}}` (the inner key
`primary` is reached with accumulated prefix `colors`), giving the two
promised entries `colors-primary` and `colors-primary-500`. -/
theorem claim_C6_witness :
    mapLookup [("colors-primary", JValue.str "#0057e6"),
        ("colors-primary-500", JValue.str "#0057e6"),
        ("colors-primary-DEFAULT", JValue.str "#0057e6")] "colors-primary" =
      some (.str "#0057e6") ∧
    mapLookup [("colors-primary", JValue.str "#0057e6"),
        ("colors-primary-500", JValue.str "#0057e6"),
        ("colors-primary-DEFAULT", JValue.str "#0057e6")] "colors-primary-500" =
      some (.str "#0057e6") := by
  have h := claim_C6_amended "colors" "primary"
    (.ofList [("500", .str "#0057e6"), ("DEFAULT", .str "#0057e6")]) (.str "#0057e6")
    [("colors-primary", .str "#0057e6"), ("colors-primary-500", .str "#0057e6"),
     ("colors-primary-DEFAULT", .str "#0057e6")]
    (by decide) (fun s hs => nomatch hs) (by decide) (by decide) (by decide) (by decide)
  refine ⟨?_, ?_⟩
  · have h1 := h.1
    simpa using h1
  · have h2 := h.2 "500" (.str "#0057e6") (by decide) (by decide) (by decide)
    simpa using h2

/-- C10 counterexample: the claim asserts an extra `p-DEFAULT` entry for
every object with a `DEFAULT` key; when the object also carries a
string-valued `value` key, the value branch wins and no `p-DEFAULT` entry is
produced. -/
theorem claim_C10_counterexample :
    flattenObject (.ofList [("p", jobj [("value", .str "s"), ("DEFAULT", .str "d")])]) "" =
      .ok [("p", .str "s")] ∧
    mapLookup [("p", JValue.str "s")] "p-DEFAULT" = none := by decide

/-- C10 (amended): for a non-metadata key holding an object with a
scalar-valued `DEFAULT` member and no string-valued `value` member, the
Flattener emits — besides the promoted entry at the bare path — an extra
entry at path `p-DEFAULT` equal to the DEFAULT value, because the recursion
into the group re-visits the DEFAULT key itself as a scalar leaf. -/
theorem claim_C10_amended : ∀ (pfx k : String) (g : JFields) (d : JValue) (m : FlatMap),
    jsStartsWith k "$" = false →
    (∀ s, g.lookup "value" ≠ some (.str s)) →
    g.lookup "DEFAULT" = some d →
    isScalar d = true →
    (g.toList.map Prod.fst).Nodup →
    dashPre pfx ++ k ≠ "" →
    flattenObject (.ofList [(k, .obj g)]) pfx = .ok m →
    mapLookup m (dashPre pfx ++ k ++ "-" ++ "DEFAULT") = some d := by
  intro pfx k g d m hmeta hnv hd hsc hnd hpk hok
  have hok' : flattenList (.cons k (.obj g) .nil) pfx [] = .ok m := hok
  rw [flattenList_cons_default _ _ _ _ _ _ hmeta hnv hd] at hok'
  cases hsub : flattenList g (dashPre pfx ++ k) [] with
  | error e => rw [hsub] at hok'; cases hok'
  | ok sub =>
    rw [hsub] at hok'
    have hm : m = jsAssign (jsInsert [] (dashPre pfx ++ k) d) sub := by
      cases hok'
      rfl
    subst hm
    have hid : jsInsert ([] : FlatMap) (dashPre pfx ++ k) d = [(dashPre pfx ++ k, d)] := rfl
    have hne : (dashPre pfx ++ k) ++ "-" ++ "DEFAULT" ≠ dashPre pfx ++ k :=
      str_ne_of_extend _ _
    rw [mapLookup_jsAssign_right _ _ _
      (flattenList_nodup g _ [] sub hsub (by simp))
      (by rw [hid]; simpa using hne)]
    exact flattenList_scalar_lookup g (dashPre pfx ++ k) [] sub "DEFAULT" d hpk hsub hnd
      (JFields.lookup_mem g "DEFAULT" d hd) hsc (by decide)

/-- C10 witness: the amended claim applied at `{k: {DEFAULT: "d", x: "1"}}`. -/
theorem claim_C10_witness :
    mapLookup [("k", JValue.str "d"), ("k-DEFAULT", JValue.str "d"),
        ("k-x", JValue.str "1")] ("k-DEFAULT") = some (.str "d") := by
  have h := claim_C10_amended "" "k" (.ofList [("DEFAULT", .str "d"), ("x", .str "1")])
    (.str "d")
    [("k", .str "d"), ("k-DEFAULT", .str "d"), ("k-x", .str "1")]
    (by decide) (fun s hs => nomatch hs) (by decide) (by decide) (by decide) (by decide)
    (by decide)
  simpa using h


/-- C2 witness: the amended claim applied at `{a: [1]}` (silent drop) and at
`{fontFamily: {sans: [3]}}` (TypeError failing the generator). -/
theorem claim_C2_witness :
    flattenList (.cons "a" (jarr [.num 1]) .nil) "" [] = flattenList .nil "" [] ∧
    flattenObject (.ofList [("fontFamily", jobj [("sans", jarr [.num 3])])]) "" =
      .error "TypeError: f.includes is not a function" :=
  ⟨claim_C2_amended.1 "a" _ .nil "" [],
   claim_C2_amended.2 "sans" 3 "" (by decide) (by decide)⟩

theorem lookup_ofList_none (l : List (String × JValue)) (name : String)
    (h : name ∉ l.map Prod.fst) : (JFields.ofList l).lookup name = none := by
  induction l with
  | nil => rfl
  | cons p rest ih =>
    simp only [List.map_cons, List.mem_cons, not_or] at h
    simp only [JFields.ofList, JFields.lookup]
    rw [if_neg (by simp; exact fun hh => h.1 hh.symm)]
    exact ih h.2

theorem lookup_mapped_arr (entries : List (String × List String)) (name : String)
    (v : JValue)
    (h : (JFields.ofList (entries.map (fun e =>
      (e.1, jarr (e.2.map JValue.str))))).lookup name = some v) :
    ∃ l : List String, v = jarr (l.map JValue.str) := by
  induction entries with
  | nil => cases h
  | cons e rest ih =>
    simp only [List.map_cons, JFields.ofList, JFields.lookup] at h
    by_cases he : e.1 = name
    · rw [if_pos (by simp [he])] at h
      injection h with h
      exact ⟨e.2, h.symm⟩
    · rw [if_neg (by simp [he])] at h
      exact ih h

theorem quoteFonts_strs (names : List String) :
    quoteFonts (.ofList (names.map JValue.str)) =
      .ok (names.map (fun f => if jsContainsChar f ' ' then "\"" ++ f ++ "\"" else f)) := by
  induction names with
  | nil => rfl
  | cons f rest ih =>
    simp only [List.map_cons, JList.ofList, quoteFonts, quoteFont]
    rw [ih]
    rfl

theorem fontFamilyFold_mapped (entries : List (String × List String)) :
    ∀ (base : String) (acc : FlatMap),
    (∀ e ∈ entries, (base ++ "-" ++ e.1) ∉ acc.map Prod.fst) →
    (entries.map Prod.fst).Nodup →
    fontFamilyFold (.ofList (entries.map (fun e => (e.1, jarr (e.2.map JValue.str)))))
        base acc =
      .ok (acc ++ entries.map (fun e => (base ++ "-" ++ e.1, .str (specFontJoin e.2)))) := by
  induction entries with
  | nil =>
    intro base acc _ _
    simp [JFields.ofList, fontFamilyFold]
  | cons e rest ih =>
    intro base acc hfresh hnd
    simp only [List.map_cons, List.nodup_cons] at hnd
    simp only [List.map_cons, JFields.ofList]
    show (do
        let quoted ← quoteFonts (.ofList (e.2.map JValue.str))
        fontFamilyFold (.ofList (rest.map (fun (e' : String × List String) =>
            (e'.1, jarr (e'.2.map JValue.str)))))
          base (jsInsert acc (base ++ "-" ++ e.1) (.str (jsJoin ", " quoted)))) = _
    rw [quoteFonts_strs]
    show fontFamilyFold _ base (jsInsert acc (base ++ "-" ++ e.1) (.str (jsJoin ", "
      (e.2.map (fun f => if jsContainsChar f ' ' then "\"" ++ f ++ "\"" else f))))) = _
    rw [jsInsert_eq_append _ _ _ (hfresh e (by simp))]
    rw [ih base _ ?_ hnd.2]
    · simp [specFontJoin]
    · intro e' he'
      simp only [List.map_append, List.mem_append]
      push_neg
      constructor
      · exact hfresh e' (by simp [he'])
      · simp only [List.map_cons, List.map_nil, List.mem_singleton]
        intro hh
        have he1 : e'.1 = e.1 := str_append_cancel_left (base ++ "-") _ _ hh
        exact hnd.1 (he1 ▸ List.mem_map.mpr ⟨e', he', rfl⟩)

/-- C7: for every collection of font-name sequences under the reserved
`fontFamily` key (keys distinct, none named `DEFAULT`), the Flattener emits
exactly one flat entry per entry key, at the `fontFamily`-prefixed path,
whose value is the sequence joined with `", "` wrapping exactly the names
containing a space in double quotes (`specFontJoin`). -/
theorem claim_C7 : ∀ (pfx : String) (entries : List (String × List String)),
    "DEFAULT" ∉ entries.map Prod.fst →
    (entries.map Prod.fst).Nodup →
    flattenObject (.ofList [("fontFamily",
        .obj (.ofList (entries.map (fun e => (e.1, jarr (e.2.map JValue.str))))))]) pfx =
      .ok (entries.map (fun e =>
        (dashPre pfx ++ "fontFamily" ++ "-" ++ e.1, .str (specFontJoin e.2)))) := by
  intro pfx entries hdef hnd
  have hnv : ∀ s, (JFields.ofList (entries.map (fun e =>
      (e.1, jarr (e.2.map JValue.str))))).lookup "value" ≠ some (.str s) := by
    intro s hs
    obtain ⟨l, hl⟩ := lookup_mapped_arr entries "value" _ hs
    cases hl
  have hdd : (JFields.ofList (entries.map (fun e =>
      (e.1, jarr (e.2.map JValue.str))))).lookup "DEFAULT" = none := by
    apply lookup_ofList_none
    simpa using hdef
  show flattenList (.cons "fontFamily" (.obj (.ofList (entries.map (fun e =>
    (e.1, jarr (e.2.map JValue.str)))))) .nil) pfx [] = _
  rw [flattenList_cons_font _ _ _ _ hnv hdd]
  rw [fontFamilyFold_mapped entries (dashPre pfx ++ "fontFamily") [] (by simp) hnd]
  simp only [List.nil_append]
  rfl

/-- C7 witness: the claim applied at the spec's example — under accumulated
prefix `typography`, `{fontFamily: {sans: ["Inter", "system-ui"]}}` flattens
to `typography-fontFamily-sans = "Inter, system-ui"`. -/
theorem claim_C7_witness :
    flattenObject (.ofList [("fontFamily",
        .obj (.ofList [("sans", jarr [.str "Inter", .str "system-ui"])]))]) "typography" =
      .ok [("typography-fontFamily-sans", .str "Inter, system-ui")] := by
  have h := claim_C7 "typography" [("sans", ["Inter", "system-ui"])] (by decide) (by decide)
  exact h.trans (by decide)


theorem categorizeStep_get (cats : Categories) (key : String) (v : JValue) (b : Cat) :
    (categorizeStep cats key v).get b =
      cats.get b ++ (if specCat key = b then [cssVarLine key v] else []) := by
  unfold categorizeStep specCat
  split_ifs with h1 h2 h3 h4 h5 <;> cases b <;> simp_all [Categories.get]

theorem categorize_fold_get : ∀ (flat : FlatMap) (cats : Categories) (b : Cat),
    (flat.foldl (fun c p => categorizeStep c p.1 p.2) cats).get b =
      cats.get b ++ (flat.filter (fun e => specCat e.1 == b)).map
        (fun e => cssVarLine e.1 e.2) := by
  intro flat
  induction flat with
  | nil => intro cats b; simp
  | cons p rest ih =>
    intro cats b
    simp only [List.foldl_cons]
    rw [ih]
    rw [categorizeStep_get]
    by_cases h : specCat p.1 = b
    · rw [if_pos h]
      rw [List.filter_cons_of_pos (by simp [h])]
      simp
    · rw [if_neg h]
      rw [List.filter_cons_of_neg (by simp [h])]
      simp

theorem categorize_get_eq (flat : FlatMap) (b : Cat) :
    (categorize flat).get b =
      (flat.filter (fun e => specCat e.1 == b)).map (fun e => cssVarLine e.1 e.2) := by
  unfold categorize
  rw [categorize_fold_get]
  cases b <;> simp [Categories.get, Categories.empty]

theorem categorize_shadows_aux : ∀ (flat : FlatMap) (cats : Categories),
    (flat.foldl (fun c p => categorizeStep c p.1 p.2) cats).shadows = cats.shadows := by
  intro flat
  induction flat with
  | nil => intro cats; rfl
  | cons p rest ih =>
    intro cats
    simp only [List.foldl_cons]
    rw [ih]
    unfold categorizeStep
    split_ifs <;> rfl

/-- C8: the classification loop of generateBaseCSS assigns every flattened
entry to exactly one of the six effective buckets, following the spec's
first-match priority order (`specCat`): each bucket list consists of exactly
the css-var lines of the entries whose key selects that bucket, in order —
and the seventh declared bucket `shadows` is never filled. -/
theorem claim_C8 : ∀ (flat : FlatMap),
    (categorize flat).colors =
      (flat.filter (fun e => specCat e.1 == Cat.colors)).map (fun e => cssVarLine e.1 e.2) ∧
    (categorize flat).typography =
      (flat.filter (fun e => specCat e.1 == Cat.typography)).map (fun e => cssVarLine e.1 e.2) ∧
    (categorize flat).spacing =
      (flat.filter (fun e => specCat e.1 == Cat.spacing)).map (fun e => cssVarLine e.1 e.2) ∧
    (categorize flat).borders =
      (flat.filter (fun e => specCat e.1 == Cat.borders)).map (fun e => cssVarLine e.1 e.2) ∧
    (categorize flat).transitions =
      (flat.filter (fun e => specCat e.1 == Cat.transitions)).map (fun e => cssVarLine e.1 e.2) ∧
    (categorize flat).other =
      (flat.filter (fun e => specCat e.1 == Cat.other)).map (fun e => cssVarLine e.1 e.2) ∧
    (categorize flat).shadows = [] :=
  fun flat =>
    ⟨categorize_get_eq flat Cat.colors, categorize_get_eq flat Cat.typography,
     categorize_get_eq flat Cat.spacing, categorize_get_eq flat Cat.borders,
     categorize_get_eq flat Cat.transitions, categorize_get_eq flat Cat.other,
     categorize_shadows_aux flat Categories.empty⟩

theorem all_success_eq_foldr : ∀ (l : List Artifact),
    l.all (fun a => a.success) = (l.map Artifact.success).foldr (fun a b => a && b) true := by
  intro l
  induction l with
  | nil => rfl
  | cons a rest ih => simp [List.all_cons, ih]

/-- C9: build produces exactly 5 artifacts, the batch-level success flag is
the AND of the five individual success flags, and whenever exactly one
generator throws, exactly 1 artifact is marked failed and 4 succeeded — a
thrown exception never aborts sibling generators. -/
theorem claim_C9 : ∀ (doc : JFields) (now : String),
    (build doc now).length = 5 ∧
    buildSuccess doc now =
      ((build doc now).map Artifact.success).foldr (fun a b => a && b) true ∧
    ((build doc now).countP (fun a => !a.success) = 1 →
      (build doc now).countP (fun a => a.success) = 4) := by
  intro doc now
  refine ⟨rfl, all_success_eq_foldr (build doc now), ?_⟩
  intro h1
  have hlen : (build doc now).length = 5 := rfl
  have hsplit := List.length_eq_countP_add_countP (fun a : Artifact => a.success)
    (build doc now)
  have hcongr : (build doc now).countP (fun a => decide ¬(a.success = true)) =
      (build doc now).countP (fun a => !a.success) := by
    apply List.countP_congr
    intro a _
    cases ha : a.success <;> simp [ha]
  rw [hlen, hcongr, h1] at hsplit
  omega

/-- C9 witness: on the empty token document exactly one generator (the
tailwind one, whose `variables.colors.primary` read throws) fails, the other
four succeed, and the batch flag is false. -/
theorem claim_C9_witness :
    (build .nil "2025-01-01T00:00:00.000Z").countP (fun a => !a.success) = 1 ∧
    (build .nil "2025-01-01T00:00:00.000Z").countP (fun a => a.success) = 4 ∧
    buildSuccess .nil "2025-01-01T00:00:00.000Z" = false := by
  refine ⟨by decide, ?_, by decide⟩
  exact (claim_C9 .nil "2025-01-01T00:00:00.000Z").2.2 (by decide)


theorem sandwich_cancel (a b t1 t2 : String) (h : a ++ (t1 ++ b) = a ++ (t2 ++ b)) :
    t1 = t2 :=
  str_append_cancel_right _ _ _ (str_append_cancel_left a _ _ h)

theorem baseCSSBody_timestamp_inj (flat : FlatMap) (t1 t2 : String)
    (h : baseCSSBody flat t1 = baseCSSBody flat t2) : t1 = t2 := by
  unfold baseCSSBody at h
  simp only [] at h
  split_ifs at h with hc
  · simp only [String.append_assoc] at h
    exact sandwich_cancel _ _ _ _ h
  · simp only [String.append_assoc] at h
    exact sandwich_cancel _ _ _ _ h

/-- C1 counterexample: the claim promises byte-identical artifacts for two
compilations of the same token document; each generator embeds
`new Date().toISOString()`, so two runs at different clock readings differ
already on the empty document. -/
theorem claim_C1_counterexample :
    generateSlidevCSS .nil "2025-01-01T00:00:00.000Z" ≠
      generateSlidevCSS .nil "2025-01-01T00:00:00.001Z" := by decide

/-- C1 (amended): given the same token document, each of the five generator
outputs is byte-identical across two runs exactly when the embedded
`@generated` timestamp is the same — the timestamp is the only varying part
(for the two fallible generators, on the success path). -/
theorem claim_C1_amended :
    (∀ (doc : JFields) (t1 t2 : String), (flattenObject doc "").isOk = true →
      (generateBaseCSS doc t1 = generateBaseCSS doc t2 ↔ t1 = t2)) ∧
    (∀ (doc : JFields) (t1 t2 : String),
      generateSlidevCSS doc t1 = generateSlidevCSS doc t2 ↔ t1 = t2) ∧
    (∀ (doc : JFields) (t1 t2 : String),
      generateRevealCSS doc t1 = generateRevealCSS doc t2 ↔ t1 = t2) ∧
    (∀ (doc : JFields) (t1 t2 : String),
      generateWebSlidesCSS doc t1 = generateWebSlidesCSS doc t2 ↔ t1 = t2) ∧
    (∀ (doc : JFields) (t1 t2 : String), (buildTwConfig doc).isOk = true →
      (generateTailwindConfig doc t1 = generateTailwindConfig doc t2 ↔ t1 = t2)) := by
  refine ⟨?_, ?_, ?_, ?_, ?_⟩
  · intro doc t1 t2 hok
    cases hflat : flattenObject doc "" with
    | error e => rw [hflat] at hok; cases hok
    | ok flat =>
      constructor
      · intro h
        unfold generateBaseCSS at h
        rw [hflat] at h
        have h2 : Except.ok (ε := String) (baseCSSBody flat t1) =
            Except.ok (baseCSSBody flat t2) := h
        injection h2 with h2
        exact baseCSSBody_timestamp_inj flat t1 t2 h2
      · intro h
        rw [h]
  · intro doc t1 t2
    constructor
    · intro h
      unfold generateSlidevCSS at h
      simp only [String.append_assoc] at h
      exact sandwich_cancel _ _ _ _ h
    · intro h
      rw [h]
  · intro doc t1 t2
    constructor
    · intro h
      unfold generateRevealCSS at h
      simp only [String.append_assoc] at h
      exact sandwich_cancel _ _ _ _ h
    · intro h
      rw [h]
  · intro doc t1 t2
    constructor
    · intro h
      unfold generateWebSlidesCSS at h
      simp only [String.append_assoc] at h
      exact sandwich_cancel _ _ _ _ h
    · intro h
      rw [h]
  · intro doc t1 t2 hok
    cases hcfg : buildTwConfig doc with
    | error e => rw [hcfg] at hok; cases hok
    | ok cfg =>
      constructor
      · intro h
        unfold generateTailwindConfig at h
        rw [hcfg] at h
        have h2 : Except.ok (ε := String)
              (tailwindSeg0 ++ t1 ++ tailwindSeg1 ++ jsonStr cfg 0 ++ tailwindSeg2) =
            Except.ok (tailwindSeg0 ++ t2 ++ tailwindSeg1 ++ jsonStr cfg 0 ++ tailwindSeg2) := h
        injection h2 with h2
        simp only [String.append_assoc] at h2
        exact sandwich_cancel _ _ _ _ h2
      · intro h
        rw [h]

/-- C1 witness: the amended claim applied on the empty document for the base
generator (same timestamp, identical output) and the slidev generator. -/
theorem claim_C1_witness :
    (generateBaseCSS .nil "2025-01-01T00:00:00.000Z" =
        generateBaseCSS .nil "2025-01-01T00:00:00.000Z" ↔
      ("2025-01-01T00:00:00.000Z" : String) = "2025-01-01T00:00:00.000Z") ∧
    (generateSlidevCSS .nil "2025-01-01T00:00:00.000Z" =
        generateSlidevCSS .nil "2025-01-01T00:00:00.001Z" ↔
      ("2025-01-01T00:00:00.000Z" : String) = "2025-01-01T00:00:00.001Z") :=
  ⟨claim_C1_amended.1 .nil _ _ (by decide),
   claim_C1_amended.2.1 .nil _ _⟩


theorem plainFields_cons (k : String) (v : JValue) (rest : JFields)
    (h : plainFields (.cons k v rest) = true) :
    k.length ≠ 0 ∧ jsStartsWith k "$" = false ∧ k ≠ "value" ∧ k ≠ "DEFAULT" ∧
      k ≠ "fontFamily" ∧ plainVal v = true ∧ plainFields rest = true := by
  simp only [plainFields, Bool.and_eq_true, bne_iff_ne, ne_eq, Bool.not_eq_true] at h
  obtain ⟨⟨⟨⟨⟨⟨h1, h2⟩, h3⟩, h4⟩, h5⟩, h6⟩, h7⟩ := h
  exact ⟨by simpa using h1, by simpa using h2, by simpa using h3, by simpa using h4,
    by simpa using h5, h6, h7⟩

theorem plain_lookup_none : ∀ (fs : JFields) (name : String),
    plainFields fs = true → (name = "value" ∨ name = "DEFAULT") →
    fs.lookup name = none := by
  intro fs
  induction fs using JFields.indOn with
  | hnil => intro name _ _; rfl
  | hcons k v rest ih =>
    intro name hp hn
    obtain ⟨_, _, h3, h4, _, _, h7⟩ := plainFields_cons k v rest hp
    simp only [JFields.lookup]
    rw [if_neg (by rcases hn with rfl | rfl <;> simp [h3, h4])]
    exact ih name h7 hn

theorem plain_key_ne_empty (k : String) (h : k.length ≠ 0) : k ≠ "" := by
  intro hk
  exact h (hk ▸ rfl)

theorem emitFields_shift : ∀ (fs : JFields) (q : String), plainFields fs = true → q ≠ "" →
    emitFields fs q = (emitFields fs "").map (fun e => (q ++ "-" ++ e.1, e.2))
  | .nil, q, _, _ => by simp [emitFields]
  | .cons k v rest, q, hp, hq => by
    obtain ⟨h1, _, _, _, _, h6, h7⟩ := plainFields_cons k v rest hp
    have hk : k ≠ "" := plain_key_ne_empty k h1
    have hdq : dashPre q = q ++ "-" := dashPre_eq q hq
    have hd0 : dashPre "" ++ k = k := by rw [dashPre_empty]; rfl
    cases v with
    | str sv =>
      simp only [emitFields, hdq, hd0]
      rw [emitFields_shift rest q h7 hq]
      simp
    | num n =>
      simp only [emitFields, hdq, hd0]
      rw [emitFields_shift rest q h7 hq]
      simp
    | obj fs' =>
      have hp' : plainFields fs' = true := h6
      simp only [emitFields, hdq, hd0]
      rw [emitFields_shift fs' (q ++ "-" ++ k) hp' (str_mid_dash_ne_empty q k),
        emitFields_shift fs' k hp' hk,
        emitFields_shift rest q h7 hq]
      simp only [List.map_append, List.map_map]
      congr 1
      apply List.map_congr_left
      intro e _
      simp [Function.comp, String.append_assoc]
    | bool b => cases h6
    | null => cases h6
    | undef => cases h6
    | arr xs => cases h6


theorem flattenList_plain : ∀ (fs : JFields) (pfx : String) (acc : FlatMap),
    plainFields fs = true →
    ((acc.map Prod.fst) ++ (emitFields fs pfx).map Prod.fst).Nodup →
    flattenList fs pfx acc = .ok (acc ++ emitFields fs pfx) := by
  intro fs pfx acc
  induction fs, pfx, acc using flattenList.induct with
  | case1 pfx acc =>
    intro _ _
    simp [emitFields, flattenList_nil]
  | case2 key rest pfx acc fields hmeta ih =>
    intro hp _
    obtain ⟨_, h2, _, _, _, _, _⟩ := plainFields_cons key (.obj fields) rest hp
    rw [h2] at hmeta
    exact Bool.noConfusion hmeta
  | case3 key rest pfx acc pre fields hmeta sv hv ih =>
    intro hp _
    obtain ⟨_, _, _, _, _, h6, _⟩ := plainFields_cons key (.obj fields) rest hp
    rw [plain_lookup_none fields "value" h6 (Or.inl rfl)] at hv
    cases hv
  | case4 key rest pfx acc pre fields hmeta d hd hnv ihsub ih =>
    intro hp _
    obtain ⟨_, _, _, _, _, h6, _⟩ := plainFields_cons key (.obj fields) rest hp
    rw [plain_lookup_none fields "DEFAULT" h6 (Or.inr rfl)] at hd
    cases hd
  | case5 key rest pfx acc fields hmeta hd hfont hnv ih =>
    intro hp _
    obtain ⟨_, _, _, _, h5, _, _⟩ := plainFields_cons key (.obj fields) rest hp
    exact absurd (by simpa using hfont) h5
  | case6 key rest pfx acc pre fields hmeta hd hfont hnv ihsub ih =>
    intro hp hnd
    obtain ⟨_, h2, _, _, _, h6, h7⟩ := plainFields_cons key (.obj fields) rest hp
    simp only [emitFields, List.map_append] at hnd ⊢
    have hchild : ((emitFields fields (dashPre pfx ++ key)).map Prod.fst).Nodup :=
      (hnd.of_append_right).of_append_left
    have hdisj := List.disjoint_of_nodup_append hnd
    have hassign : jsAssign acc (emitFields fields (dashPre pfx ++ key)) =
        acc ++ emitFields fields (dashPre pfx ++ key) := by
      refine jsAssign_eq_append _ _ ?_ hchild
      intro k hk hk2
      exact hdisj hk2 (by simp [hk])
    have ihr : flattenList rest pfx
          (jsAssign acc (emitFields fields (dashPre pfx ++ key))) =
        .ok (jsAssign acc (emitFields fields (dashPre pfx ++ key)) ++
          emitFields rest pfx) := by
      refine ih (emitFields fields (dashPre pfx ++ key)) h7 ?_
      show ((jsAssign acc (emitFields fields (dashPre pfx ++ key))).map Prod.fst ++
        (emitFields rest pfx).map Prod.fst).Nodup
      rw [hassign]
      simp only [List.map_append]
      rw [List.append_assoc]
      exact hnd
    have hsub : flattenList fields (dashPre pfx ++ key) [] =
        Except.ok ([] ++ emitFields fields (dashPre pfx ++ key)) :=
      ihsub h6 (by simpa using hchild)
    rw [flattenList_cons_generic _ _ _ _ _ h2 hnv hd (by simpa using hfont)]
    rw [hsub]
    show flattenList rest pfx (jsAssign acc ([] ++ emitFields fields (dashPre pfx ++ key)))
      = _
    rw [List.nil_append, ihr, hassign, List.append_assoc]
  | case7 key rest pfx acc pre sv ih =>
    intro hp hnd
    obtain ⟨_, _, _, _, _, _, h7⟩ := plainFields_cons key (.str sv) rest hp
    simp only [emitFields, List.map_append, List.map_cons, List.map_nil] at hnd ⊢
    have hpk : dashPre pfx ++ key ∉ acc.map Prod.fst := by
      intro hmem
      exact List.disjoint_of_nodup_append hnd hmem (by simp)
    have hins : jsInsert acc (dashPre pfx ++ key) (.str sv) =
        acc ++ [(dashPre pfx ++ key, .str sv)] := jsInsert_eq_append _ _ _ hpk
    have ihr : flattenList rest pfx (jsInsert acc (dashPre pfx ++ key) (.str sv)) =
        .ok (jsInsert acc (dashPre pfx ++ key) (.str sv) ++ emitFields rest pfx) := by
      refine ih h7 ?_
      show ((jsInsert acc (dashPre pfx ++ key) (.str sv)).map Prod.fst ++
        (emitFields rest pfx).map Prod.fst).Nodup
      rw [hins]
      simp only [List.map_append, List.map_cons, List.map_nil]
      rw [List.append_assoc]
      exact hnd
    rw [flattenList_cons_str, ihr, hins]
    simp
  | case8 key rest pfx acc pre n ih =>
    intro hp hnd
    obtain ⟨_, _, _, _, _, _, h7⟩ := plainFields_cons key (.num n) rest hp
    simp only [emitFields, List.map_append, List.map_cons, List.map_nil] at hnd ⊢
    have hpk : dashPre pfx ++ key ∉ acc.map Prod.fst := by
      intro hmem
      exact List.disjoint_of_nodup_append hnd hmem (by simp)
    have hins : jsInsert acc (dashPre pfx ++ key) (.num n) =
        acc ++ [(dashPre pfx ++ key, .num n)] := jsInsert_eq_append _ _ _ hpk
    have ihr : flattenList rest pfx (jsInsert acc (dashPre pfx ++ key) (.num n)) =
        .ok (jsInsert acc (dashPre pfx ++ key) (.num n) ++ emitFields rest pfx) := by
      refine ih h7 ?_
      show ((jsInsert acc (dashPre pfx ++ key) (.num n)).map Prod.fst ++
        (emitFields rest pfx).map Prod.fst).Nodup
      rw [hins]
      simp only [List.map_append, List.map_cons, List.map_nil]
      rw [List.append_assoc]
      exact hnd
    rw [flattenList_cons_num, ihr, hins]
    simp
  | case9 key v rest pfx acc hnobj hnstr hnnum ih =>
    intro hp _
    obtain ⟨_, _, _, _, _, h6, _⟩ := plainFields_cons key v rest hp
    cases v with
    | arr xs => cases h6
    | bool b => cases h6
    | null => cases h6
    | undef => cases h6
    | str sv => exact absurd rfl (hnstr sv)
    | num n => exact absurd rfl (hnnum n)
    | obj fs' => exact absurd rfl (hnobj fs')

/-- On a plain document with a nonempty prefix and non-colliding variable
names, the read-path flattener emits exactly the raw emission sequence,
with each key turned into a `--`-prefixed custom property name. -/
theorem cssFields_emit : ∀ (fs : JFields) (p : String) (vars : FlatMap),
    plainFields fs = true → p ≠ "" →
    ((vars.map Prod.fst) ++
      ((emitFields fs p).map (fun e => "--" ++ e.1))).Nodup →
    cssFields fs p vars =
      vars ++ (emitFields fs p).map (fun e => ("--" ++ e.1, e.2))
  | .nil, p, vars => by
    intro _ _ _
    simp [cssFields, emitFields]
  | .cons k v rest, p, vars => by
    intro hp hpne hnd
    obtain ⟨h1, h2, h3, h4, h5, h6, h7⟩ := plainFields_cons k v rest hp
    have hdp : dashPre p = p ++ "-" := dashPre_eq p hpne
    have hvn : "--" ++ p ++ "-" ++ k = "--" ++ (p ++ "-" ++ k) := by
      simp [String.append_assoc]
    cases v with
    | str sv =>
      simp only [emitFields, hdp, List.map_append, List.map_cons, List.map_nil] at hnd ⊢
      have hnotin : "--" ++ p ++ "-" ++ k ∉ vars.map Prod.fst := by
        rw [hvn]
        intro hmem
        exact List.disjoint_of_nodup_append hnd hmem (by simp)
      simp only [cssFields, h2, Bool.false_eq_true, if_false]
      rw [jsInsert_eq_append _ _ _ hnotin]
      rw [cssFields_emit rest p _ h7 hpne ?hnds]
      case hnds =>
        simp only [List.map_append, List.map_cons, List.map_nil, hvn]
        rw [List.append_assoc]
        exact hnd
      rw [hvn, List.append_assoc]
    | num n =>
      simp only [emitFields, hdp, List.map_append, List.map_cons, List.map_nil] at hnd ⊢
      have hnotin : "--" ++ p ++ "-" ++ k ∉ vars.map Prod.fst := by
        rw [hvn]
        intro hmem
        exact List.disjoint_of_nodup_append hnd hmem (by simp)
      simp only [cssFields, h2, Bool.false_eq_true, if_false]
      rw [jsInsert_eq_append _ _ _ hnotin]
      rw [cssFields_emit rest p _ h7 hpne ?hndn]
      case hndn =>
        simp only [List.map_append, List.map_cons, List.map_nil, hvn]
        rw [List.append_assoc]
        exact hnd
      rw [hvn, List.append_assoc]
    | obj fields =>
      have hpf : plainFields fields = true := h6
      simp only [emitFields, hdp, List.map_append] at hnd ⊢
      have hndc : ((vars.map Prod.fst) ++
          ((emitFields fields (p ++ "-" ++ k)).map (fun e => "--" ++ e.1))).Nodup := by
        rw [← List.append_assoc] at hnd
        exact hnd.of_append_left
      simp only [cssFields, h2, Bool.false_eq_true, if_false]
      rw [plain_lookup_none fields "DEFAULT" hpf (Or.inr rfl)]
      rw [plain_lookup_none fields "value" hpf (Or.inl rfl)]
      rw [cssFields_emit fields (p ++ "-" ++ k) vars hpf (str_mid_dash_ne_empty p k) hndc]
      rw [cssFields_emit rest p _ h7 hpne ?hndo]
      case hndo =>
        simp only [List.map_append, List.map_map]
        have hcomp : (Prod.fst ∘ fun e : String × JValue => ("--" ++ e.1, e.2)) =
            (fun e : String × JValue => "--" ++ e.1) := rfl
        rw [hcomp, List.append_assoc]
        exact hnd
      rw [List.append_assoc]
    | bool b => exact absurd h6 (by simp [plainVal])
    | null => exact absurd h6 (by simp [plainVal])
    | undef => exact absurd h6 (by simp [plainVal])
    | arr elems => exact absurd h6 (by simp [plainVal])

/-- C4 (counterexample): the two flattening implementations do drift. On the
document { a: { value: "x" } } the build-path Flattener collapses the
wrapper to a single entry a = "x", while the read-path accessor emits both
--prsm-a and the extra descent entry --prsm-a-value, so getCSSVariables is
not the build-path result with keys prefixed by "--prsm-". -/
theorem claim_C4_counterexample :
    flattenObject (.ofList [("a", jobj [("value", .str "x")])]) "" =
      .ok [("a", .str "x")] ∧
    getCSSVariables (.ofList [("a", jobj [("value", .str "x")])]) ≠
      [("--prsm-a", .str "x")] := by
  exact ⟨by decide, by decide⟩

/-- C4 (amended): on plain documents — every key nonempty, not starting with
`$` and none of the reserved names `value` / `DEFAULT` / `fontFamily`, every
value a string, number or plain object — with pairwise-distinct flattened
paths, the read-path accessor getCSSVariables returns exactly the build-path
Flattener entries with each key prefixed by "--prsm-". -/
theorem claim_C4_amended (tokens : JFields) (m : FlatMap)
    (hp : plainFields tokens = true)
    (hnd : ((emitFields tokens "").map Prod.fst).Nodup)
    (hok : flattenObject tokens "" = .ok m) :
    getCSSVariables tokens = m.map (fun e => ("--prsm-" ++ e.1, e.2)) := by
  have hok2 : flattenList tokens "" [] = .ok m := hok
  have hfl := flattenList_plain tokens "" [] hp (by simpa using hnd)
  have hm : m = emitFields tokens "" := by
    have h := hfl.symm.trans hok2
    simpa using (Except.ok.inj h).symm
  have hlit : ("--" : String) ++ ("prsm" ++ "-") = "--prsm-" := by decide
  have hsh : emitFields tokens "prsm" =
      (emitFields tokens "").map (fun e => ("prsm" ++ "-" ++ e.1, e.2)) :=
    emitFields_shift tokens "prsm" hp (by decide)
  have hinj : Function.Injective (fun s : String => "--prsm-" ++ s) := by
    intro a b hab
    exact str_append_cancel_left _ _ _ hab
  have hndp : ((emitFields tokens "prsm").map
      (fun e : String × JValue => "--" ++ e.1)).Nodup := by
    rw [hsh, List.map_map]
    have hfun : ((fun e : String × JValue => "--" ++ e.1) ∘
        (fun e : String × JValue => ("prsm" ++ "-" ++ e.1, e.2))) =
        ((fun s : String => "--prsm-" ++ s) ∘ Prod.fst) := by
      funext e
      show "--" ++ ("prsm" ++ "-" ++ e.1) = "--prsm-" ++ e.1
      rw [← String.append_assoc, hlit]
    rw [hfun, ← List.map_map]
    exact hnd.map hinj
  show cssFields tokens "prsm" [] = _
  rw [cssFields_emit tokens "prsm" [] hp (by decide) (by simpa using hndp)]
  rw [hsh, List.map_map, hm]
  simp only [List.nil_append]
  refine List.map_congr_left ?_
  intro e _
  show ("--" ++ ("prsm" ++ "-" ++ e.1), e.2) = ("--prsm-" ++ e.1, e.2)
  rw [← String.append_assoc, hlit]

theorem claim_C4_witness :
    getCSSVariables (.ofList
      [("colors", jobj [("slide", jobj [("background", .str "#fff")])]),
       ("spacing", jobj [("md", .str "1rem")])]) =
    [("--prsm-colors-slide-background", .str "#fff"),
     ("--prsm-spacing-md", .str "1rem")] := by
  have h := claim_C4_amended
    (.ofList [("colors", jobj [("slide", jobj [("background", .str "#fff")])]),
              ("spacing", jobj [("md", .str "1rem")])])
    [("colors-slide-background", .str "#fff"), ("spacing-md", .str "1rem")]
    (by decide) (by decide) (by decide)
  exact h.trans (by decide)

end PresentRus
